import Mathlib

/-!
# Spending rate limit hook (`xrpl_rate_limit.c`)

A shallow embedding of the function `hook` and a verification of its
window, decision and state-encoding behaviour.

Conventions of the embedding.

* An `int64_t` value is an `Int` in the range `-2^63 ≤ x < 2^63`; every
  arithmetic result is reduced by `wrap64` (two's complement, as the compiled
  hook computes it).  Bit operations act on the 64-bit pattern `toBits`.
* A byte buffer (`uint8_t buf[n]`) is a map from index to value; a byte that
  is read is reduced modulo 256.  The bytes handed to or received from the host
  are lists.
* The host functions (`otxn_field`, `otxn_type`, `ledger_last_time`, `state`,
  `otxn_slot`, `slot_subfield`, `slot_type`) are not part of the program: what
  they return in one invocation is the record `Host`.  `rollback` and `accept`
  end the invocation.
* The header macro `AMOUNT_TO_DROPS` is not part of the program either; it is a
  parameter of `hook`.
-/

namespace RateLimitHook

/-! ## Constants (lines 6-16) -/

/-- Line 7: `#define ttPAYMENT 0`. -/
def ttPAYMENT : Int := 0

/-- Line 10: `#define DURATION_WINDOW_LIMIT 300`. -/
def DURATION_WINDOW_LIMIT : Int := 300

/-- Line 11: `#define MAX_XRP_SPENDING_LIMIT 100`. -/
def MAX_XRP_SPENDING_LIMIT : Int := 100

/-- Line 14: `#define CONVERSION_FACTOR 1000000`. -/
def CONVERSION_FACTOR : Int := 1000000

/-- Line 16: `#define LINUX_OFFSET 946684800`. -/
def LINUX_OFFSET : Int := 946684800

/-! ## 64-bit machine arithmetic -/

/-- The `int64_t` value with the same low 64 bits as `x`. -/
def wrap64 (x : Int) : Int :=
  (x + 9223372036854775808) % 18446744073709551616 - 9223372036854775808

/-- Range of `int64_t`. -/
def isInt64 (x : Int) : Prop :=
  -9223372036854775808 ≤ x ∧ x < 9223372036854775808

instance (x : Int) : Decidable (isInt64 x) := by
  unfold isInt64; exact inferInstance

/-- The 64-bit two's-complement pattern of an `int64_t` value, as a number
below `2^64`. -/
def toBits (x : Int) : Nat := (x % 18446744073709551616).toNat

/-- The `int64_t` value of a bit pattern (bits above 63 are dropped). -/
def ofBits (n : Nat) : Int := wrap64 (Int.ofNat n)

/-- `a + b` on `int64_t`. -/
def add64 (a b : Int) : Int := wrap64 (a + b)

/-- `a - b` on `int64_t`. -/
def sub64 (a b : Int) : Int := wrap64 (a - b)

/-- `a * b` on `int64_t`. -/
def mul64 (a b : Int) : Int := wrap64 (a * b)

/-- `a % b` on `int64_t`: the remainder of C, which truncates towards zero. -/
def mod64 (a b : Int) : Int := Int.tmod a b

/-- `a << k` on `int64_t`. -/
def shl64 (a : Int) (k : Nat) : Int := ofBits (toBits a <<< k)

/-- `a >> k` on `int64_t` (arithmetic shift). -/
def sar64 (a : Int) (k : Nat) : Int := a / 2 ^ k

/-- `a | b` on `int64_t`. -/
def or64 (a b : Int) : Int := ofBits (toBits a ||| toBits b)

/-- `a & b` on `int64_t`. -/
def and64 (a b : Int) : Int := ofBits (toBits a &&& toBits b)

/-- The cast `(uint8_t)a`. -/
def to_uint8 (a : Int) : Nat := (a % 256).toNat

/-! ## Buffers -/

/-- A byte array of the program, by index. -/
abbrev Buf := Nat → Nat

/-- The assignment `buf[i] = v`. -/
def Buf.set (buf : Buf) (i v : Nat) : Buf := fun j => if j = i then v else buf j

/-- The first `n` bytes of a buffer: what `SBUF(buf)` hands to the host for an
array of `n` bytes. -/
def SBUF (buf : Buf) (n : Nat) : List Nat := (List.range n).map buf

/-! ## The state codec (lines 50-58 and 110-118) -/

/-- Lines 51-53 (`off = 0`) and 56-58 (`off = 8`): starting from 0, the loop
`v |= ((int64_t)latest_state[counter + off] << (counter * 8))` for
`counter = 0 .. 7`. -/
def readLoop (latest_state : Buf) (off : Nat) : Int :=
  (List.range 8).foldl
    (fun v counter =>
      or64 v (shl64 (Int.ofNat (latest_state (counter + off) % 256)) (counter * 8)))
    0

/-- Lines 111-113 (`off = 0`) and 116-118 (`off = 8`): the loop
`updated_state[counter + off] = (uint8_t)((v >> (counter * 8)) & 0xFF)` for
`counter = 0 .. 7`. -/
def writeLoop (updated_state : Buf) (off : Nat) (v : Int) : Buf :=
  (List.range 8).foldl
    (fun buf counter =>
      buf.set (counter + off) (to_uint8 (and64 (sar64 v (counter * 8)) 0xFF)))
    updated_state

/-! ## The host -/

/-- What the host functions hand to the program during one invocation, and
the content of the two arrays the program declares without initialising. -/
structure Host where
  /-- Line 25: the value of `account_field_len`, that is the value returned by
  `otxn_field(SBUF(account_field), sfAccount)` converted to `int32_t`. -/
  account_field_len : Int
  /-- Line 24-25: the bytes of `account_field` after that call. -/
  account_field : List Nat
  /-- Line 31: the value returned by `otxn_type()`. -/
  otxn_type : Int
  /-- Line 40: the value returned by `ledger_last_time()`. -/
  ledger_last_time : Int
  /-- Line 47: the content of `latest_state[32]` at its declaration (the
  program does not initialise it). -/
  latest_state : Buf
  /-- Line 71: the value returned by `otxn_slot(0)`. -/
  otxn_slot : Int
  /-- Line 76: the value returned by `slot_subfield(oslot, sfAmount, 0)`. -/
  slot_subfield : Int
  /-- Line 85: the value returned by `otxn_field(SBUF(amount_buffer), sfAmount)`. -/
  amount_len : Int
  /-- Line 84-85: the bytes of `amount_buffer` after that call. -/
  amount_buffer : List Nat
  /-- Line 94: the value returned by `slot_type(amt_slot, 1)`. -/
  slot_type : Int
  /-- Line 108: the content of `updated_state[32]` at its declaration (the
  program does not initialise it). -/
  updated_state : Buf

/-- A call of the program to the host's key-value store. -/
inductive HostCall where
  /-- The read `state(SBUF(latest_state), key)`. -/
  | state (key : List Nat)
  /-- The write `state_set(data, key)`. -/
  | state_set (data : List Nat) (key : List Nat)
  deriving DecidableEq, Repr

/-- How an invocation ends. -/
inductive Exit where
  /-- The call `accept(0, 0, 0)`. -/
  | accept
  /-- The call `rollback(SBUF(msg), code)`. -/
  | rollback (msg : String) (code : Int)
  deriving DecidableEq, Repr

/-- The observable behaviour of one invocation: its calls to the store, in
order, and the call that ends it. -/
structure Outcome where
  calls : List HostCall
  exit : Exit
  deriving DecidableEq, Repr

/-- Line 48, the host call `state(SBUF(latest_state), SBUF(account_field))`:
the host copies the value stored under the key to the start of the 32-byte
array.  With nothing stored under the key (or a value that does not fit)
nothing is copied and the array keeps its content; the program ignores the
value the call returns. -/
def state (latest_state : Buf) (stored : Option (List Nat)) : Buf :=
  match stored with
  | none => latest_state
  | some d =>
    if d.length ≤ 32 then fun j => if j < d.length then d.getD j 0 else latest_state j
    else latest_state

/-! ## The program -/

/-- Line 40: `latest_ledger_timestamp = ledger_last_time() + LINUX_OFFSET`. -/
def latest_ledger_timestamp (h : Host) : Int := add64 h.ledger_last_time LINUX_OFFSET

/-- Lines 43-58: `(window_end_timestamp, total_transacted_amount_this_window)`
as read from `latest_state`. -/
def readState (latest_state : Buf) : Int × Int :=
  (readLoop latest_state 0, readLoop latest_state 8)

/-- Lines 64-67: the window check, on
`(window_end_timestamp, total_transacted_amount_this_window)`. -/
def windowCheck (now : Int) (st : Int × Int) : Int × Int :=
  if now ≥ st.1 then
    (sub64 (add64 now DURATION_WINDOW_LIMIT) (mod64 now DURATION_WINDOW_LIMIT), 0)
  else st

/-- Line 90: `transaction_amount = AMOUNT_TO_DROPS(amount_buffer)`, stored in
an `int64_t`. -/
def transaction_amount (AMOUNT_TO_DROPS : List Nat → Int) (h : Host) : Int :=
  wrap64 (AMOUNT_TO_DROPS h.amount_buffer)

/-- Lines 107-118: `updated_state` after the two write loops. -/
def writeState (updated_state : Buf) (st : Int × Int) : Buf :=
  writeLoop (writeLoop updated_state 0 st.1) 8 st.2

/-- Lines 18-132: the function `hook`.  `stored` is the value the host's store
holds under the key `account_field` when the invocation starts. -/
def hook (AMOUNT_TO_DROPS : List Nat → Int) (h : Host) (stored : Option (List Nat)) :
    Outcome :=
  -- lines 24-28
  if h.account_field_len < 20 then
    ⟨[], Exit.rollback "sfAccount field missing!!!" 10⟩
  else
  -- lines 31-37
  if h.otxn_type ≠ ttPAYMENT then
    ⟨[], Exit.accept⟩
  else
  -- line 40
  let now := latest_ledger_timestamp h
  -- lines 43-58
  let st := readState (state h.latest_state stored)
  -- lines 64-67
  let st := windowCheck now st
  -- lines 71-73
  if h.otxn_slot < 0 then
    ⟨[HostCall.state h.account_field], Exit.rollback "Could not slot originating txn." 1⟩
  else
  -- lines 76-79
  if h.slot_subfield < 0 then
    ⟨[HostCall.state h.account_field], Exit.rollback "Could not slot otxn.sfAmount" 2⟩
  else
  -- lines 81-91
  if h.amount_len ≠ 8 then
    ⟨[HostCall.state h.account_field],
      Exit.rollback "Could not determine sent amount type" 3⟩
  else
  let amount := transaction_amount AMOUNT_TO_DROPS h
  -- lines 94-97
  if h.slot_type < 0 then
    ⟨[HostCall.state h.account_field],
      Exit.rollback "Could not determine sent amount type" 3⟩
  else
  -- lines 100-102
  if add64 st.2 amount ≥ MAX_XRP_SPENDING_LIMIT * CONVERSION_FACTOR then
    ⟨[HostCall.state h.account_field],
      Exit.rollback "Rate limit exceeded. Maximum XRP spending limit reached." 10⟩
  else
  -- line 105
  let st := (st.1, add64 st.2 amount)
  -- lines 107-121
  let updated_state := writeState h.updated_state st
  -- line 128
  ⟨[HostCall.state h.account_field,
    HostCall.state_set (SBUF updated_state 32) h.account_field], Exit.accept⟩

/-- The little-endian value of the first `n` bytes from `off` on. -/
def leValue (buf : Buf) (off : Nat) : Nat → Nat
  | 0 => 0
  | n + 1 => leValue buf off n + buf (n + off) % 256 * 256 ^ n

/-- The guards a payment passes before the limit check: lines 26, 32, 72, 77,
87 and 95. -/
def nativePayment (h : Host) : Prop :=
  20 ≤ h.account_field_len ∧ h.otxn_type = ttPAYMENT ∧ 0 ≤ h.otxn_slot ∧
    0 ≤ h.slot_subfield ∧ h.amount_len = 8 ∧ 0 ≤ h.slot_type

instance (h : Host) : Decidable (nativePayment h) := by
  unfold nativePayment; exact inferInstance

/-- The pair `(window_end_timestamp, total_transacted_amount_this_window)` when
line 100 is reached. -/
def stateAtCheck (h : Host) (stored : Option (List Nat)) : Int × Int :=
  windowCheck (latest_ledger_timestamp h) (readState (state h.latest_state stored))

/-- The value the store holds under `key` after the given calls. -/
def storedAfter (key : List Nat) (stored : Option (List Nat)) (calls : List HostCall) :
    Option (List Nat) :=
  calls.foldl
    (fun s c =>
      match c with
      | HostCall.state_set d k => if k = key then some d else s
      | HostCall.state _ => s)
    stored

/-- Whether a call is a `state_set`. -/
def HostCall.isWrite : HostCall → Bool
  | HostCall.state_set _ _ => true
  | HostCall.state _ => false

/-- Whether a call is a `state`. -/
def HostCall.isRead : HostCall → Bool
  | HostCall.state_set _ _ => false
  | HostCall.state _ => true

/-- The accumulated amount the limit check starts from, in the words of the
specification: 0 when the window has expired (`now ≥ window_end`), the stored
amount otherwise. -/
def effectiveAccumulated (now : Int) (st : Int × Int) : Int :=
  if now ≥ st.1 then 0 else st.2

/-! ## Runs of invocations -/

/-- The record an invocation leaves in the store: the data of its `state_set`
call when it ends in `accept`, nothing when it makes no such call or ends in
`rollback`. -/
def Outcome.written (o : Outcome) : Option (List Nat) :=
  match o.exit with
  | Exit.rollback _ _ => none
  | Exit.accept =>
    o.calls.foldl
      (fun w c =>
        match c with
        | HostCall.state_set d _ => some d
        | HostCall.state _ => w)
      none

/-- The accepted payments of a run of invocations for one account, the store
holding `stored` for that account when the run starts: for each invocation that
ends in `accept` having written a record, the window end held by that record
and the amount of the payment.  An invocation that writes nothing leaves the
stored value as it is. -/
def acceptedPayments (AMOUNT_TO_DROPS : List Nat → Int) :
    Option (List Nat) → List Host → List (Int × Int)
  | _, [] => []
  | stored, h :: hs =>
    match (hook AMOUNT_TO_DROPS h stored).written with
    | some data =>
      ((readState (state (fun _ => 0) (some data))).1, transaction_amount AMOUNT_TO_DROPS h)
        :: acceptedPayments AMOUNT_TO_DROPS (some data) hs
    | none => acceptedPayments AMOUNT_TO_DROPS stored hs

/-- The sum of the amounts of the accepted payments persisted with the window
end `W`. -/
def windowTotal (W : Int) (log : List (Int × Int)) : Int :=
  ((log.filter (fun e => e.1 = W)).map Prod.snd).sum

/-! ## Sample inputs -/

/-- A reading of the amount bytes for the examples: their big-endian value. -/
def sampleDrops (b : List Nat) : Int :=
  Int.ofNat (b.foldl (fun a x => a * 256 + x % 256) 0)

/-- The eight big-endian bytes of `n`. -/
def dropsBytes (n : Nat) : List Nat :=
  [n / 72057594037927936 % 256, n / 281474976710656 % 256, n / 1099511627776 % 256,
    n / 4294967296 % 256, n / 16777216 % 256, n / 65536 % 256, n / 256 % 256, n % 256]

/-- A payment of `drops` at ledger time `now` (seconds of the codec's epoch),
all host calls succeeding, both arrays holding zeros at their declaration. -/
def samplePayment (now : Int) (drops : Nat) : Host where
  account_field_len := 20
  account_field := List.replicate 20 1
  otxn_type := 0
  ledger_last_time := now - 946684800
  latest_state := fun _ => 0
  otxn_slot := 1
  slot_subfield := 2
  amount_len := 8
  amount_buffer := dropsBytes drops
  slot_type := 1
  updated_state := fun _ => 0

/-- A stored record of 16 bytes: `window_end` then `accumulated`, each as eight
little-endian bytes. -/
def sampleRecord (window_end accumulated : Nat) : List Nat :=
  (dropsBytes window_end).reverse ++ (dropsBytes accumulated).reverse

/-- A transaction that is not a payment (type 3) and whose sender field could
not be read: `account_field_len` is -5. -/
def nonPaymentWithoutSender : Host :=
  { samplePayment 500 500000 with otxn_type := 3, account_field_len := -5 }

/-- A transaction that is not a payment (type 3), its sender field present. -/
def sampleNonPayment : Host :=
  { samplePayment 500 500000 with otxn_type := 3 }

/-- A payment whose amount field is 48 bytes long (an issued-currency amount). -/
def sampleIssuedPayment : Host :=
  { samplePayment 500 500000 with amount_len := 48, amount_buffer := List.replicate 48 213 }

/-- The four ways a host call can keep the transaction `h` from the limit
check: the sender field is not read (`account_field_len` is -5), `otxn_slot`
fails (-6), `slot_subfield` fails (-5), the type probe `slot_type` fails (-2). -/
def withFailingHostCall (h : Host) : List Host :=
  [{ h with account_field_len := -5 }, { h with otxn_slot := -6 },
    { h with slot_subfield := -5 }, { h with slot_type := -2 }]

/-- Two payments of 60,000,000 drops, both at the ledger time `2^63 - 1`. -/
def paymentsAtLastSecond : List Host :=
  [samplePayment 9223372036854775807 60000000, samplePayment 9223372036854775807 60000000]

/-- A payment of 1 drop, then a payment of `2^63 - 1` drops, both at time 0. -/
def paymentsWithHugeAmount : List Host :=
  [samplePayment 0 1, samplePayment 0 9223372036854775807]

/-- A run for one account: payments of 60,000,000 and 30,000,000 in the window
that ends at 600, a payment of 20,000,000 that exceeds the limit there, a
transaction that is not a payment, and a payment of 60,000,000 in the next
window. -/
def sampleRun : List Host :=
  [samplePayment 500 60000000, samplePayment 510 30000000, samplePayment 520 20000000,
    sampleNonPayment, samplePayment 600 60000000]

/-- The payment of 500,000 at time 500 with an array `updated_state` that
holds 170 in every byte at its declaration. -/
def paymentOnDirtyArrays : Host :=
  { samplePayment 500 500000 with updated_state := fun _ => 170 }

/-- The payment of 500,000 at time 500 with an array `latest_state` that
holds 1 in every byte at its declaration. -/
def paymentOnDirtyLatestState : Host :=
  { samplePayment 500 500000 with latest_state := fun _ => 1 }

/-- A payment of 1 drop at time 500, then a payment of 1 drop at the ledger
time `2^63 - 1`. -/
def paymentsThenLastSecond : List Host :=
  [samplePayment 500 1, samplePayment 9223372036854775807 1]

/-! ## Lemmas on the machine arithmetic and the loops -/

theorem toBits_ofBits (n : Nat) : toBits (ofBits n) = n % 18446744073709551616 := by
  simp only [toBits, ofBits, wrap64, Int.ofNat_eq_coe]
  omega

theorem toBits_lt (x : Int) : toBits x < 18446744073709551616 := by
  simp only [toBits]; omega

theorem ofBits_toBits (x : Int) (h : -9223372036854775808 ≤ x ∧ x < 9223372036854775808) :
    ofBits (toBits x) = x := by
  simp only [toBits, ofBits, wrap64, Int.ofNat_eq_coe]
  omega

theorem write_byte (v : Int) (i : Nat) (hi : i < 8) :
    to_uint8 (and64 (sar64 v (i * 8)) 0xFF) = toBits v / 256 ^ i % 256 := by
  have h255 : toBits (0xFF : Int) = 2 ^ 8 - 1 := by decide
  have e : to_uint8 (and64 (sar64 v (i * 8)) 0xFF) = toBits (sar64 v (i * 8)) % 256 := by
    simp only [and64, h255, Nat.and_pow_two_sub_one_eq_mod, to_uint8, ofBits, wrap64, Int.ofNat_eq_coe]
    omega
  rw [e]
  simp only [toBits, sar64]
  interval_cases i <;> norm_num <;> omega

/-- One pass of the read loop adds the byte at its place. -/
theorem or_step (a b i : Nat) (hi : i < 8) (ha : a < 256 ^ i) (hb : b < 256) :
    or64 (ofBits a) (shl64 (Int.ofNat b) (i * 8)) = ofBits (a + b * 256 ^ i) := by
  have hp : (256 : Nat) ^ i = 2 ^ (i * 8) := by
    rw [Nat.mul_comm, pow_mul]; norm_num
  have hlt : b * 256 ^ i < 18446744073709551616 := by
    interval_cases i <;> norm_num <;> omega
  have h1 : toBits (Int.ofNat b) = b := by
    simp only [toBits, Int.ofNat_eq_coe]; omega
  have ha64 : a < 18446744073709551616 := by
    interval_cases i <;> norm_num at ha <;> omega
  simp only [or64, shl64, toBits_ofBits, h1, Nat.shiftLeft_eq]
  rw [← hp, Nat.mod_eq_of_lt hlt, Nat.mod_eq_of_lt ha64]
  congr 1
  rw [hp] at ha ⊢
  rw [Nat.lor_comm, Nat.mul_comm b, ← Nat.mul_add_lt_is_or ha b]
  omega


theorem readFold (buf : Buf) (off : Nat) (n : Nat) (hn : n ≤ 8) :
    (List.range n).foldl
      (fun v counter =>
        or64 v (shl64 (Int.ofNat (buf (counter + off) % 256)) (counter * 8))) 0
      = ofBits (leValue buf off n) ∧ leValue buf off n < 256 ^ n := by
  induction n with
  | zero => exact ⟨by simp [ofBits, wrap64, leValue], by simp [leValue]⟩
  | succ n ih =>
    obtain ⟨e, hlt⟩ := ih (by omega)
    constructor
    · rw [List.range_succ, List.foldl_append, e, List.foldl_cons, List.foldl_nil]
      exact or_step _ _ n (by omega) hlt (Nat.mod_lt _ (by norm_num))
    · have hb : buf (n + off) % 256 < 256 := Nat.mod_lt _ (by norm_num)
      show leValue buf off n + buf (n + off) % 256 * 256 ^ n < 256 ^ (n + 1)
      rw [pow_succ]
      nlinarith

theorem readLoop_eq (buf : Buf) (off : Nat) :
    readLoop buf off = ofBits (leValue buf off 8) :=
  (readFold buf off 8 (by omega)).1

theorem leValue_eight (buf : Buf) (off : Nat) :
    leValue buf off 8 =
      buf off % 256 + buf (1 + off) % 256 * 256 + buf (2 + off) % 256 * 65536
        + buf (3 + off) % 256 * 16777216 + buf (4 + off) % 256 * 4294967296
        + buf (5 + off) % 256 * 1099511627776 + buf (6 + off) % 256 * 281474976710656
        + buf (7 + off) % 256 * 72057594037927936 := by
  simp only [leValue]
  norm_num

theorem writeLoop_apply (buf : Buf) (off : Nat) (v : Int) (i : Nat) :
    writeLoop buf off v (i + off) =
      if i < 8 then toBits v / 256 ^ i % 256 else buf (i + off) := by
  have r8 : List.range 8 = [0, 1, 2, 3, 4, 5, 6, 7] := by decide
  unfold writeLoop
  rw [r8]
  simp only [List.foldl_cons, List.foldl_nil, Buf.set, Nat.add_right_cancel_iff]
  by_cases h : i < 8
  · rw [if_pos h]
    have hw := write_byte v i h
    interval_cases i <;> simpa using hw
  · rw [if_neg h]
    have : ∀ k, k < 8 → i ≠ k := by intro k hk; omega
    simp [this]

theorem writeLoop_other (buf : Buf) (off : Nat) (v : Int) (j : Nat) (h : j < off ∨ off + 8 ≤ j) :
    writeLoop buf off v j = buf j := by
  have r8 : List.range 8 = [0, 1, 2, 3, 4, 5, 6, 7] := by decide
  unfold writeLoop
  rw [r8]
  simp only [List.foldl_cons, List.foldl_nil, Buf.set]
  have : ∀ k, k < 8 → j ≠ k + off := by intro k hk; omega
  have h0 : j ≠ off := by omega
  simp [this, h0]

theorem wrap64_of_isInt64 (x : Int) (h : isInt64 x) : wrap64 x = x := by
  unfold isInt64 at h
  simp only [wrap64]
  omega

theorem isInt64_wrap64 (x : Int) : isInt64 (wrap64 x) := by
  simp only [isInt64, wrap64]
  omega

theorem isInt64_ofBits (n : Nat) : isInt64 (ofBits n) := isInt64_wrap64 _

theorem isInt64_readLoop (buf : Buf) (off : Nat) : isInt64 (readLoop buf off) := by
  rw [readLoop_eq]; exact isInt64_ofBits _

/-- Reading eight bytes that are the little-endian bytes of `v` gives `v`. -/
theorem readLoop_of_bytes (buf : Buf) (off : Nat) (v : Int) (hv : isInt64 v)
    (hb : ∀ i, i < 8 → buf (i + off) = toBits v / 256 ^ i % 256) :
    readLoop buf off = v := by
  have h0 := hb 0 (by omega)
  have h1 := hb 1 (by omega)
  have h2 := hb 2 (by omega)
  have h3 := hb 3 (by omega)
  have h4 := hb 4 (by omega)
  have h5 := hb 5 (by omega)
  have h6 := hb 6 (by omega)
  have h7 := hb 7 (by omega)
  norm_num at h0 h1 h2 h3 h4 h5 h6 h7
  rw [readLoop_eq, leValue_eight, h0, h1, h2, h3, h4, h5, h6, h7]
  have hlt := toBits_lt v
  have e : toBits v % 256 % 256 + toBits v / 256 % 256 % 256 * 256
      + toBits v / 65536 % 256 % 256 * 65536
      + toBits v / 16777216 % 256 % 256 * 16777216
      + toBits v / 4294967296 % 256 % 256 * 4294967296
      + toBits v / 1099511627776 % 256 % 256 * 1099511627776
      + toBits v / 281474976710656 % 256 % 256 * 281474976710656
      + toBits v / 72057594037927936 % 256 % 256 * 72057594037927936 = toBits v := by
    omega
  rw [e]
  exact ofBits_toBits v hv

theorem writeState_fst (buf : Buf) (st : Int × Int) (i : Nat) (hi : i < 8) :
    writeState buf st i = toBits st.1 / 256 ^ i % 256 := by
  unfold writeState
  rw [writeLoop_other _ 8 _ i (by omega)]
  have := writeLoop_apply buf 0 st.1 i
  simpa [hi] using this

theorem writeState_snd (buf : Buf) (st : Int × Int) (i : Nat) (hi : i < 8) :
    writeState buf st (i + 8) = toBits st.2 / 256 ^ i % 256 := by
  unfold writeState
  rw [writeLoop_apply]
  simp [hi]

theorem writeState_rest (buf : Buf) (st : Int × Int) (j : Nat) (hj : 16 ≤ j) :
    writeState buf st j = buf j := by
  unfold writeState
  rw [writeLoop_other _ 8 _ j (by omega), writeLoop_other _ 0 _ j (by omega)]

theorem length_SBUF (buf : Buf) (n : Nat) : (SBUF buf n).length = n := by
  simp [SBUF]

theorem getD_SBUF (buf : Buf) (n j : Nat) (hj : j < n) : (SBUF buf n).getD j 0 = buf j := by
  simp [SBUF, List.getD_eq_getElem?_getD, hj]

/-- After a 32-byte record has been stored, `state` fills the whole array with it. -/
theorem state_SBUF (g buf : Buf) (j : Nat) (hj : j < 32) :
    state g (some (SBUF buf 32)) j = buf j := by
  show (if (SBUF buf 32).length ≤ 32 then
      fun j => if j < (SBUF buf 32).length then (SBUF buf 32).getD j 0 else g j
    else g) j = buf j
  rw [length_SBUF, if_pos (Nat.le_refl 32)]
  show (if j < 32 then (SBUF buf 32).getD j 0 else g j) = buf j
  rw [if_pos hj, getD_SBUF _ _ _ hj]

/-- The state read back from a record written by the program. -/
theorem readState_written (g buf : Buf) (st : Int × Int) (h1 : isInt64 st.1)
    (h2 : isInt64 st.2) :
    readState (state g (some (SBUF (writeState buf st) 32))) = st := by
  unfold readState
  rw [readLoop_of_bytes _ 0 st.1 h1, readLoop_of_bytes _ 8 st.2 h2]
  · intro i hi
    rw [state_SBUF _ _ _ (by omega), writeState_snd _ _ _ hi]
  · intro i hi
    rw [state_SBUF _ _ _ (by omega)]
    exact writeState_fst _ _ _ hi

theorem limit_eq : MAX_XRP_SPENDING_LIMIT * CONVERSION_FACTOR = 100000000 := by decide

/-- The two outcomes of an invocation that reaches the limit check. -/
theorem hook_of_nativePayment (AMOUNT_TO_DROPS : List Nat → Int) (h : Host)
    (stored : Option (List Nat)) (hn : nativePayment h) :
    hook AMOUNT_TO_DROPS h stored =
      if add64 (stateAtCheck h stored).2 (transaction_amount AMOUNT_TO_DROPS h) ≥ 100000000 then
        ⟨[HostCall.state h.account_field],
          Exit.rollback "Rate limit exceeded. Maximum XRP spending limit reached." 10⟩
      else
        ⟨[HostCall.state h.account_field,
          HostCall.state_set
            (SBUF (writeState h.updated_state
              ((stateAtCheck h stored).1,
                add64 (stateAtCheck h stored).2 (transaction_amount AMOUNT_TO_DROPS h))) 32)
            h.account_field], Exit.accept⟩ := by
  obtain ⟨h1, h2, h3, h4, h5, h6⟩ := hn
  unfold hook
  rw [if_neg (not_lt.mpr h1), if_neg (not_not.mpr h2), if_neg (not_lt.mpr h3),
    if_neg (not_lt.mpr h4), if_neg (not_not.mpr h5), if_neg (not_lt.mpr h6), limit_eq]
  rfl

/-- An invocation that does not reach the limit check writes nothing. -/
theorem hook_of_not_nativePayment (AMOUNT_TO_DROPS : List Nat → Int) (h : Host)
    (stored : Option (List Nat)) (hn : ¬ nativePayment h) :
    ∀ c ∈ (hook AMOUNT_TO_DROPS h stored).calls, c.isWrite = false := by
  unfold nativePayment at hn
  unfold hook
  split_ifs <;> first | (exfalso; omega) | simp [HostCall.isWrite]

theorem stateAtCheck_snd (h : Host) (stored : Option (List Nat)) :
    (stateAtCheck h stored).2 =
      effectiveAccumulated (latest_ledger_timestamp h)
        (readState (state h.latest_state stored)) := by
  unfold stateAtCheck windowCheck effectiveAccumulated
  split_ifs <;> rfl

theorem add64_exact (a b : Int) (h : isInt64 (a + b)) : add64 a b = a + b :=
  wrap64_of_isInt64 _ h

theorem storedAfter_of_no_write (key : List Nat) (stored : Option (List Nat))
    (cs : List HostCall) (hw : ∀ c ∈ cs, c.isWrite = false) :
    storedAfter key stored cs = stored := by
  induction cs generalizing stored with
  | nil => rfl
  | cons c cs ih =>
    have hc := hw c (List.mem_cons_self _ _)
    cases c with
    | state k => exact ih stored (fun c hc => hw c (List.mem_cons_of_mem _ hc))
    | state_set d k => simp [HostCall.isWrite] at hc

theorem isInt64_transaction_amount (AMOUNT_TO_DROPS : List Nat → Int) (h : Host) :
    isInt64 (transaction_amount AMOUNT_TO_DROPS h) := isInt64_wrap64 _

theorem isInt64_add64 (a b : Int) : isInt64 (add64 a b) := isInt64_wrap64 _

/-- The new window end, for a time that is not negative. -/
theorem windowEnd_eq (now : Int) (hnow : 0 ≤ now) :
    sub64 (add64 now DURATION_WINDOW_LIMIT) (mod64 now DURATION_WINDOW_LIMIT)
      = wrap64 (now + 300 - now % 300) := by
  have ht : Int.tmod now 300 = now % 300 := Int.tmod_eq_emod hnow (by norm_num)
  simp only [sub64, add64, mod64, DURATION_WINDOW_LIMIT, ht, wrap64]
  omega

theorem isInt64_stateAtCheck (h : Host) (stored : Option (List Nat)) :
    isInt64 (stateAtCheck h stored).1 := by
  unfold stateAtCheck windowCheck
  split_ifs
  · exact isInt64_wrap64 _
  · exact isInt64_readLoop _ _

theorem toBits_readLoop (buf : Buf) (off : Nat) :
    toBits (readLoop buf off) = leValue buf off 8 := by
  rw [readLoop_eq, toBits_ofBits]
  have h := (readFold buf off 8 (by omega)).2
  norm_num at h
  omega

/-- Writing back a state that was read reproduces the bytes it was read from. -/
theorem writeState_readState (buf src : Buf) (i : Nat) (hi : i < 8) :
    writeState buf (readState src) i = src i % 256 ∧
    writeState buf (readState src) (i + 8) = src (i + 8) % 256 := by
  rw [writeState_fst _ _ _ hi, writeState_snd _ _ _ hi]
  unfold readState
  simp only [toBits_readLoop, leValue_eight]
  constructor
  · interval_cases i <;> norm_num <;> omega
  · interval_cases i <;> norm_num <;> omega

theorem windowTotal_nil (W : Int) : windowTotal W [] = 0 := rfl

theorem windowTotal_cons (W : Int) (e : Int × Int) (l : List (Int × Int)) :
    windowTotal W (e :: l) = (if e.1 = W then e.2 else 0) + windowTotal W l := by
  unfold windowTotal
  by_cases h : e.1 = W <;> simp [List.filter_cons, h]

/-- The record an invocation leaves in the store. -/
theorem hook_written (AMOUNT_TO_DROPS : List Nat → Int) (h : Host)
    (stored : Option (List Nat)) :
    (hook AMOUNT_TO_DROPS h stored).written =
      if nativePayment h ∧
          add64 (stateAtCheck h stored).2 (transaction_amount AMOUNT_TO_DROPS h) < 100000000
      then
        some (SBUF (writeState h.updated_state
          ((stateAtCheck h stored).1,
            add64 (stateAtCheck h stored).2 (transaction_amount AMOUNT_TO_DROPS h))) 32)
      else none := by
  by_cases hn : nativePayment h
  · rw [hook_of_nativePayment _ _ _ hn]
    by_cases hl : add64 (stateAtCheck h stored).2 (transaction_amount AMOUNT_TO_DROPS h)
        < 100000000
    · rw [if_neg (by omega), if_pos ⟨hn, hl⟩]
      rfl
    · rw [if_pos (by omega), if_neg (fun hc => hl hc.2)]
      rfl
  · rw [if_neg (fun hc => hn hc.1)]
    have hw := hook_of_not_nativePayment AMOUNT_TO_DROPS h stored hn
    unfold Outcome.written
    cases (hook AMOUNT_TO_DROPS h stored).exit with
    | rollback m c => rfl
    | accept =>
      simp only
      generalize (hook AMOUNT_TO_DROPS h stored).calls = cs at hw
      induction cs with
      | nil => rfl
      | cons c cs ih =>
        have hc := hw c (List.mem_cons_self _ _)
        cases c with
        | state k => exact ih (fun c hc => hw c (List.mem_cons_of_mem _ hc))
        | state_set d k => simp [HostCall.isWrite] at hc

/-- The window end computed on expiry, for a time whose next boundary is
representable: it is the exact value and lies after `now`. -/
theorem windowEnd_exact (now : Int) (h0 : 0 ≤ now) (h1 : now + 300 < 9223372036854775808) :
    wrap64 (now + 300 - now % 300) = now + 300 - now % 300 ∧
    now < now + 300 - now % 300 := by
  constructor
  · apply wrap64_of_isInt64
    unfold isInt64
    omega
  · omega

/-- The invariant behind the cap: from a stored state `(we, acc)` with
`0 ≤ acc < 100,000,000` on, no accepted payment is persisted with a window end
before `we`, those persisted with `we` add up to less than
`100,000,000 - acc`, and those persisted with a later window end add up to
less than 100,000,000. -/
theorem cap_from_state (AMOUNT_TO_DROPS : List Nat → Int) (hs : List Host) :
    ∀ (stored : Option (List Nat)) (we acc : Int),
      (∀ h ∈ hs, readState (state h.latest_state stored) = (we, acc)) →
      0 ≤ acc → acc < 100000000 →
      (∀ h ∈ hs, 0 ≤ latest_ledger_timestamp h ∧
        latest_ledger_timestamp h + 300 < 9223372036854775808) →
      (∀ h ∈ hs, h.amount_len = 8 → 0 ≤ transaction_amount AMOUNT_TO_DROPS h ∧
        transaction_amount AMOUNT_TO_DROPS h + 100000000 ≤ 9223372036854775808) →
      ∀ W : Int,
        (W < we → windowTotal W (acceptedPayments AMOUNT_TO_DROPS stored hs) = 0) ∧
        (W = we → acc + windowTotal W (acceptedPayments AMOUNT_TO_DROPS stored hs)
          < 100000000) ∧
        (we < W → windowTotal W (acceptedPayments AMOUNT_TO_DROPS stored hs)
          < 100000000) := by
  induction hs with
  | nil =>
    intro stored we acc _ h0 h1 _ _ W
    have hnil : acceptedPayments AMOUNT_TO_DROPS stored [] = [] := by
      unfold acceptedPayments
      rfl
    rw [hnil, windowTotal_nil]
    omega
  | cons h hs ih =>
    intro stored we acc hread h0 h1 htime hamt W
    have hr := hread h (List.mem_cons_self _ _)
    obtain ⟨ht0, ht1⟩ := htime h (List.mem_cons_self _ _)
    have htime' : ∀ h ∈ hs, 0 ≤ latest_ledger_timestamp h ∧
        latest_ledger_timestamp h + 300 < 9223372036854775808 :=
      fun x hx => htime x (List.mem_cons_of_mem _ hx)
    have hamt' : ∀ h ∈ hs, h.amount_len = 8 → 0 ≤ transaction_amount AMOUNT_TO_DROPS h ∧
        transaction_amount AMOUNT_TO_DROPS h + 100000000 ≤ 9223372036854775808 :=
      fun x hx => hamt x (List.mem_cons_of_mem _ hx)
    have hread' : ∀ h ∈ hs, readState (state h.latest_state stored) = (we, acc) :=
      fun x hx => hread x (List.mem_cons_of_mem _ hx)
    simp only [acceptedPayments, hook_written]
    by_cases hc : nativePayment h ∧
        add64 (stateAtCheck h stored).2 (transaction_amount AMOUNT_TO_DROPS h) < 100000000
    · rw [if_pos hc]
      simp only
      obtain ⟨hn, hlt⟩ := hc
      obtain ⟨ha0, ha1⟩ := hamt h (List.mem_cons_self _ _) hn.2.2.2.2.1
      have hI1 := isInt64_stateAtCheck h stored
      have hI2 := isInt64_add64 (stateAtCheck h stored).2
        (transaction_amount AMOUNT_TO_DROPS h)
      rw [readState_written _ _
        ((stateAtCheck h stored).1,
          add64 (stateAtCheck h stored).2 (transaction_amount AMOUNT_TO_DROPS h)) hI1 hI2,
        windowTotal_cons]
      simp only
      have hst : stateAtCheck h stored = windowCheck (latest_ledger_timestamp h) (we, acc) := by
        unfold stateAtCheck
        rw [hr]
      by_cases hexp : latest_ledger_timestamp h ≥ we
      · -- the window has expired
        have hst' : stateAtCheck h stored
            = (wrap64 (latest_ledger_timestamp h + 300 - latest_ledger_timestamp h % 300),
                0) := by
          rw [hst]
          unfold windowCheck
          rw [if_pos hexp, windowEnd_eq _ ht0]
        obtain ⟨he, hgt⟩ := windowEnd_exact _ ht0 ht1
        rw [he] at hst'
        have hadd : add64 0 (transaction_amount AMOUNT_TO_DROPS h)
            = transaction_amount AMOUNT_TO_DROPS h := by
          rw [add64_exact _ _ (by rw [Int.zero_add]; exact isInt64_transaction_amount _ _),
            Int.zero_add]
        rw [hst'] at hlt hI1 hI2 ⊢
        simp only [hadd] at hlt hI2 ⊢
        have hih := ih _ (latest_ledger_timestamp h + 300 - latest_ledger_timestamp h % 300)
          (transaction_amount AMOUNT_TO_DROPS h)
          (fun x _ => readState_written x.latest_state h.updated_state
            (latest_ledger_timestamp h + 300 - latest_ledger_timestamp h % 300,
              transaction_amount AMOUNT_TO_DROPS h) hI1 hI2)
          ha0 hlt htime' hamt' W
        obtain ⟨i1, i2, i3⟩ := hih
        split_ifs with hw <;> omega
      · -- the window is open
        have hst' : stateAtCheck h stored = (we, acc) := by
          rw [hst]
          unfold windowCheck
          rw [if_neg hexp]
        have hadd : add64 acc (transaction_amount AMOUNT_TO_DROPS h)
            = acc + transaction_amount AMOUNT_TO_DROPS h := by
          apply add64_exact
          unfold isInt64
          omega
        rw [hst'] at hlt hI1 hI2 ⊢
        simp only [hadd] at hlt hI2 ⊢
        have hih := ih _ we (acc + transaction_amount AMOUNT_TO_DROPS h)
          (fun x _ => readState_written x.latest_state h.updated_state
            (we, acc + transaction_amount AMOUNT_TO_DROPS h) hI1 hI2)
          (by omega) hlt htime' hamt' W
        obtain ⟨i1, i2, i3⟩ := hih
        split_ifs with hw <;> omega
    · rw [if_neg hc]
      exact ih stored we acc hread' h0 h1 htime' hamt' W

/-- An invocation that calls `state_set` is a payment that passed every guard
and the limit check; the data are the 32 bytes of `updated_state`. -/
theorem hook_write_inv (AMOUNT_TO_DROPS : List Nat → Int) (h : Host)
    (stored : Option (List Nat)) (data key : List Nat)
    (hw : HostCall.state_set data key ∈ (hook AMOUNT_TO_DROPS h stored).calls) :
    nativePayment h ∧
    add64 (stateAtCheck h stored).2 (transaction_amount AMOUNT_TO_DROPS h) < 100000000 ∧
    data = SBUF (writeState h.updated_state
      ((stateAtCheck h stored).1,
        add64 (stateAtCheck h stored).2 (transaction_amount AMOUNT_TO_DROPS h))) 32 ∧
    key = h.account_field ∧
    hook AMOUNT_TO_DROPS h stored
      = ⟨[HostCall.state h.account_field, HostCall.state_set data key], Exit.accept⟩ := by
  by_cases hn : nativePayment h
  · have hk := hook_of_nativePayment AMOUNT_TO_DROPS h stored hn
    rw [hk] at hw ⊢
    split_ifs at hw ⊢ with hl
    · simp at hw
    · simp only [List.mem_cons, reduceCtorEq, HostCall.state_set.injEq, List.mem_singleton,
        false_or, List.not_mem_nil, or_false] at hw
      obtain ⟨rfl, rfl⟩ := hw
      exact ⟨hn, by omega, rfl, rfl, rfl⟩
  · have := hook_of_not_nativePayment AMOUNT_TO_DROPS h stored hn _ hw
    simp [HostCall.isWrite] at this

/-- A payment that ends in `accept` has passed every guard and the limit check. -/
theorem hook_accept_payment (AMOUNT_TO_DROPS : List Nat → Int) (h : Host)
    (stored : Option (List Nat)) (hacc : (hook AMOUNT_TO_DROPS h stored).exit = Exit.accept)
    (hpay : h.otxn_type = ttPAYMENT) :
    nativePayment h ∧
    add64 (stateAtCheck h stored).2 (transaction_amount AMOUNT_TO_DROPS h) < 100000000 := by
  by_cases hn : nativePayment h
  · rw [hook_of_nativePayment _ _ _ hn] at hacc
    by_cases hl : add64 (stateAtCheck h stored).2 (transaction_amount AMOUNT_TO_DROPS h)
        ≥ 100000000
    · rw [if_pos hl] at hacc
      simp at hacc
    · exact ⟨hn, by omega⟩
  · exfalso
    unfold nativePayment at hn
    unfold hook at hacc
    split_ifs at hacc <;> first | (simp at hacc; done) | omega

/-- The window check moves the window end forward, for a time whose next
boundary is representable. -/
theorem windowCheck_forward (now : Int) (st : Int × Int) (h0 : 0 ≤ now)
    (h1 : now + 300 < 9223372036854775808) :
    now < (windowCheck now st).1 ∧ st.1 ≤ (windowCheck now st).1 ∧
    ((windowCheck now st).1 ≠ st.1 → now ≥ st.1) := by
  unfold windowCheck
  by_cases hexp : now ≥ st.1
  · rw [if_pos hexp, windowEnd_eq _ h0]
    obtain ⟨he, hgt⟩ := windowEnd_exact now h0 h1
    simp only [he]
    omega
  · rw [if_neg hexp]
    omega

/-- From a stored state `(we, acc)` on, every accepted payment is persisted
with a window end that is at least `we`, and the window ends persisted one
after the other never decrease. -/
theorem windowEnds_from_state (AMOUNT_TO_DROPS : List Nat → Int) (hs : List Host) :
    ∀ (stored : Option (List Nat)) (we acc : Int),
      (∀ h ∈ hs, readState (state h.latest_state stored) = (we, acc)) →
      (∀ h ∈ hs, 0 ≤ latest_ledger_timestamp h ∧
        latest_ledger_timestamp h + 300 < 9223372036854775808) →
      (∀ e ∈ acceptedPayments AMOUNT_TO_DROPS stored hs, we ≤ e.1) ∧
      List.Pairwise (fun a b : Int => a ≤ b)
        ((acceptedPayments AMOUNT_TO_DROPS stored hs).map Prod.fst) := by
  induction hs with
  | nil =>
    intro stored we acc _ _
    have hnil : acceptedPayments AMOUNT_TO_DROPS stored [] = [] := by
      unfold acceptedPayments
      rfl
    rw [hnil]
    exact ⟨fun e he => absurd he (List.not_mem_nil e), List.Pairwise.nil⟩
  | cons h hs ih =>
    intro stored we acc hread htime
    have hr := hread h (List.mem_cons_self _ _)
    obtain ⟨ht0, ht1⟩ := htime h (List.mem_cons_self _ _)
    have htime' : ∀ h ∈ hs, 0 ≤ latest_ledger_timestamp h ∧
        latest_ledger_timestamp h + 300 < 9223372036854775808 :=
      fun x hx => htime x (List.mem_cons_of_mem _ hx)
    have hread' : ∀ h ∈ hs, readState (state h.latest_state stored) = (we, acc) :=
      fun x hx => hread x (List.mem_cons_of_mem _ hx)
    simp only [acceptedPayments, hook_written]
    by_cases hc : nativePayment h ∧
        add64 (stateAtCheck h stored).2 (transaction_amount AMOUNT_TO_DROPS h) < 100000000
    · rw [if_pos hc]
      simp only
      have hI1 := isInt64_stateAtCheck h stored
      have hI2 := isInt64_add64 (stateAtCheck h stored).2
        (transaction_amount AMOUNT_TO_DROPS h)
      rw [readState_written _ _
        ((stateAtCheck h stored).1,
          add64 (stateAtCheck h stored).2 (transaction_amount AMOUNT_TO_DROPS h)) hI1 hI2]
      simp only
      have hfw : we ≤ (stateAtCheck h stored).1 := by
        have := (windowCheck_forward (latest_ledger_timestamp h)
          (readState (state h.latest_state stored)) ht0 ht1).2.1
        rw [hr] at this
        unfold stateAtCheck
        rw [hr]
        exact this
      obtain ⟨i1, i2⟩ := ih _ (stateAtCheck h stored).1
        (add64 (stateAtCheck h stored).2 (transaction_amount AMOUNT_TO_DROPS h))
        (fun x _ => readState_written x.latest_state h.updated_state
          ((stateAtCheck h stored).1,
            add64 (stateAtCheck h stored).2 (transaction_amount AMOUNT_TO_DROPS h)) hI1 hI2)
        htime'
      constructor
      · intro e he
        rcases List.mem_cons.mp he with rfl | he'
        · exact hfw
        · exact le_trans hfw (i1 e he')
      · rw [List.map_cons, List.pairwise_cons]
        refine ⟨fun a ha => ?_, i2⟩
        obtain ⟨e, he, rfl⟩ := List.mem_map.mp ha
        exact i1 e he
    · rw [if_neg hc]
      exact ih stored we acc hread' htime'

/-! ## The claims -/

/-- C1 as amended. Cap invariant over sequences: for every run of invocations
for one account in which the state read is the zero record until the first
write, with every ledger time `0 ≤ now` and `now + 300` representable in 64
bits, and every amount in native form `0 ≤ amount ≤ 2^63 - 100,000,000`, the
amounts of the accepted payments persisted with one and the same window end
add up to less than 100,000,000. -/
theorem cap_invariant (AMOUNT_TO_DROPS : List Nat → Int) (stored : Option (List Nat))
    (hs : List Host)
    (hzero : ∀ h ∈ hs, readState (state h.latest_state stored) = (0, 0))
    (htime : ∀ h ∈ hs, 0 ≤ latest_ledger_timestamp h ∧
      latest_ledger_timestamp h + 300 < 9223372036854775808)
    (hamt : ∀ h ∈ hs, h.amount_len = 8 → 0 ≤ transaction_amount AMOUNT_TO_DROPS h ∧
      transaction_amount AMOUNT_TO_DROPS h + 100000000 ≤ 9223372036854775808)
    (W : Int) :
    windowTotal W (acceptedPayments AMOUNT_TO_DROPS stored hs) < 100000000 := by
  obtain ⟨i1, i2, i3⟩ :=
    cap_from_state AMOUNT_TO_DROPS hs stored 0 0 hzero (by omega) (by omega) htime hamt W
  rcases lt_trichotomy W 0 with hW | hW | hW
  · rw [i1 hW]
    omega
  · have := i2 hW
    omega
  · exact i3 hW

/-- C1 as amended, on a run with three accepted payments: 90,000,000 in the
window that ends at 600 and 60,000,000 in the window that ends at 900. -/
theorem cap_invariant_witness :
    acceptedPayments sampleDrops none sampleRun
      = [(600, 60000000), (600, 30000000), (900, 60000000)] ∧
    windowTotal 600 (acceptedPayments sampleDrops none sampleRun) < 100000000 :=
  ⟨by decide,
    cap_invariant sampleDrops none sampleRun (by decide) (by decide) (by decide) 600⟩

/-- C1 as stated fails where 64-bit sums wrap.  Two payments of 60,000,000 at
the ledger time `2^63 - 1` start from the zero record, with times and amounts
that are not negative; `now + 300` wraps, so each sees an expired window, both
are accepted and persisted with the same window end, and their amounts add up
to 120,000,000.  Likewise a payment of 1 drop followed by one of `2^63 - 1`
drops at time 0: the sum `1 + (2^63 - 1)` wraps below the limit, both are
accepted with the window end 300, and the amounts add up to `2^63`. -/
theorem cap_invariant_wrap_counterexample :
    ((∀ h ∈ paymentsAtLastSecond, readState (state h.latest_state none) = (0, 0)) ∧
      (∀ h ∈ paymentsAtLastSecond, 0 ≤ latest_ledger_timestamp h) ∧
      (∀ h ∈ paymentsAtLastSecond, 0 ≤ transaction_amount sampleDrops h) ∧
      acceptedPayments sampleDrops none paymentsAtLastSecond
        = [(-9223372036854775516, 60000000), (-9223372036854775516, 60000000)] ∧
      windowTotal (-9223372036854775516)
          (acceptedPayments sampleDrops none paymentsAtLastSecond) = 120000000 ∧
      ¬ windowTotal (-9223372036854775516)
          (acceptedPayments sampleDrops none paymentsAtLastSecond) < 100000000) ∧
    ((∀ h ∈ paymentsWithHugeAmount, readState (state h.latest_state none) = (0, 0)) ∧
      (∀ h ∈ paymentsWithHugeAmount, 0 ≤ latest_ledger_timestamp h) ∧
      (∀ h ∈ paymentsWithHugeAmount, 0 ≤ transaction_amount sampleDrops h) ∧
      acceptedPayments sampleDrops none paymentsWithHugeAmount
        = [(300, 1), (300, 9223372036854775807)] ∧
      windowTotal 300 (acceptedPayments sampleDrops none paymentsWithHugeAmount)
        = 9223372036854775808 ∧
      ¬ windowTotal 300 (acceptedPayments sampleDrops none paymentsWithHugeAmount)
        < 100000000) := by
  decide

/-- C2. No write on reject: an invocation that ends in `rollback`, on whatever
path, has made no `state_set` call, so the value stored for the account is the
one it had before the invocation.  An invocation makes at most one `state_set`
call, and makes one only when it is a payment that passed every guard and the
limit check and ends in `accept`. -/
theorem no_write_on_reject (AMOUNT_TO_DROPS : List Nat → Int) (h : Host)
    (stored : Option (List Nat)) :
    (∀ msg code, (hook AMOUNT_TO_DROPS h stored).exit = Exit.rollback msg code →
      (∀ c ∈ (hook AMOUNT_TO_DROPS h stored).calls, c.isWrite = false) ∧
      storedAfter h.account_field stored (hook AMOUNT_TO_DROPS h stored).calls = stored) ∧
    ((hook AMOUNT_TO_DROPS h stored).calls.filter HostCall.isWrite).length ≤ 1 ∧
    (∀ c ∈ (hook AMOUNT_TO_DROPS h stored).calls, c.isWrite = true →
      (hook AMOUNT_TO_DROPS h stored).exit = Exit.accept ∧ nativePayment h ∧
      add64 (stateAtCheck h stored).2 (transaction_amount AMOUNT_TO_DROPS h) < 100000000) := by
  by_cases hn : nativePayment h
  · rw [hook_of_nativePayment _ _ _ hn]
    split_ifs with hl
    · simp [HostCall.isWrite, storedAfter]
    · simp [HostCall.isWrite, hn]
      omega
  · have hw := hook_of_not_nativePayment AMOUNT_TO_DROPS h stored hn
    refine ⟨fun _ _ _ => ⟨hw, ?_⟩, ?_, ?_⟩
    · exact storedAfter_of_no_write _ _ _ hw
    · rw [List.filter_eq_nil_iff.mpr (fun c hc => by simp [hw c hc])]
      simp
    · intro c hc hcw
      rw [hw c hc] at hcw
      exact absurd hcw (by simp)

/-- C2, on a payment that exceeds the limit: the invocation ends in `rollback`,
has made no `state_set` call and leaves the stored record as it was. -/
theorem no_write_on_reject_witness :
    (hook sampleDrops (samplePayment 500 2000000)
        (some (sampleRecord 1000 99000000))).exit
      = Exit.rollback "Rate limit exceeded. Maximum XRP spending limit reached." 10 ∧
    (∀ c ∈ (hook sampleDrops (samplePayment 500 2000000)
        (some (sampleRecord 1000 99000000))).calls, c.isWrite = false) ∧
    storedAfter (samplePayment 500 2000000).account_field (some (sampleRecord 1000 99000000))
        (hook sampleDrops (samplePayment 500 2000000) (some (sampleRecord 1000 99000000))).calls
      = some (sampleRecord 1000 99000000) :=
  ⟨by decide,
    ((no_write_on_reject sampleDrops (samplePayment 500 2000000)
      (some (sampleRecord 1000 99000000))).1
      "Rate limit exceeded. Maximum XRP spending limit reached." 10 (by decide)).1,
    ((no_write_on_reject sampleDrops (samplePayment 500 2000000)
      (some (sampleRecord 1000 99000000))).1
      "Rate limit exceeded. Maximum XRP spending limit reached." 10 (by decide)).2⟩

/-- C3 as amended. The decision is the inclusive limit test on the 64-bit sum:
for a payment that passes every guard before the limit check, with `acc` the
effective accumulated amount (0 if `now ≥ window_end`, the stored amount
otherwise), the invocation ends in the limit-exceeded `rollback` exactly when
the sum `acc + amount` as line 100 computes it, in 64 bits, is at least
100,000,000, and ends in `accept` exactly when it is below; whenever the exact
sum is representable in 64 bits the `rollback` happens exactly when the exact
sum is at least 100,000,000.  A total of exactly 100,000,000 is rejected and a
total of 99,999,999 is accepted. -/
theorem limit_test_inclusive (AMOUNT_TO_DROPS : List Nat → Int) (h : Host)
    (stored : Option (List Nat)) (hn : nativePayment h) :
    ((hook AMOUNT_TO_DROPS h stored).exit
        = Exit.rollback "Rate limit exceeded. Maximum XRP spending limit reached." 10 ↔
      add64 (effectiveAccumulated (latest_ledger_timestamp h)
          (readState (state h.latest_state stored)))
        (transaction_amount AMOUNT_TO_DROPS h) ≥ 100000000) ∧
    ((hook AMOUNT_TO_DROPS h stored).exit = Exit.accept ↔
      add64 (effectiveAccumulated (latest_ledger_timestamp h)
          (readState (state h.latest_state stored)))
        (transaction_amount AMOUNT_TO_DROPS h) < 100000000) ∧
    (isInt64 (effectiveAccumulated (latest_ledger_timestamp h)
          (readState (state h.latest_state stored)) + transaction_amount AMOUNT_TO_DROPS h) →
      ((hook AMOUNT_TO_DROPS h stored).exit
          = Exit.rollback "Rate limit exceeded. Maximum XRP spending limit reached." 10 ↔
        effectiveAccumulated (latest_ledger_timestamp h)
            (readState (state h.latest_state stored)) + transaction_amount AMOUNT_TO_DROPS h
          ≥ 100000000)) ∧
    (effectiveAccumulated (latest_ledger_timestamp h)
          (readState (state h.latest_state stored)) + transaction_amount AMOUNT_TO_DROPS h
        = 100000000 →
      (hook AMOUNT_TO_DROPS h stored).exit
        = Exit.rollback "Rate limit exceeded. Maximum XRP spending limit reached." 10) ∧
    (effectiveAccumulated (latest_ledger_timestamp h)
          (readState (state h.latest_state stored)) + transaction_amount AMOUNT_TO_DROPS h
        = 99999999 →
      (hook AMOUNT_TO_DROPS h stored).exit = Exit.accept) := by
  rw [hook_of_nativePayment _ _ _ hn, stateAtCheck_snd]
  generalize effectiveAccumulated (latest_ledger_timestamp h)
    (readState (state h.latest_state stored)) = acc
  generalize transaction_amount AMOUNT_TO_DROPS h = amount
  refine ⟨?_, ?_, ?_, ?_, ?_⟩
  · split_ifs with hl
    · simp [hl]
    · simp only [reduceCtorEq, false_iff]
      exact hl
  · split_ifs with hl
    · simp only [reduceCtorEq, false_iff]
      omega
    · simp only [true_iff]
      omega
  · intro hr
    rw [add64_exact _ _ hr]
    split_ifs with hl
    · simp [hl]
    · simp only [reduceCtorEq, false_iff]
      exact hl
  · intro he
    have : add64 acc amount = 100000000 := by
      rw [add64_exact _ _ (by rw [he]; unfold isInt64; omega), he]
    rw [if_pos (by omega)]
  · intro he
    have : add64 acc amount = 99999999 := by
      rw [add64_exact _ _ (by rw [he]; unfold isInt64; omega), he]
    rw [if_neg (by omega)]

/-- C3 as amended, on the stored state (1000, 99,000,000) at time 500: a
payment of 1,000,000 brings the total to exactly 100,000,000 and is rejected, a
payment of 999,999 brings it to 99,999,999 and is accepted, and a payment of
2,000,000, whose exact sum 101,000,000 is representable, is rejected. -/
theorem limit_test_inclusive_witness :
    (hook sampleDrops (samplePayment 500 1000000) (some (sampleRecord 1000 99000000))).exit
      = Exit.rollback "Rate limit exceeded. Maximum XRP spending limit reached." 10 ∧
    (hook sampleDrops (samplePayment 500 999999) (some (sampleRecord 1000 99000000))).exit
      = Exit.accept ∧
    (hook sampleDrops (samplePayment 500 2000000) (some (sampleRecord 1000 99000000))).exit
      = Exit.rollback "Rate limit exceeded. Maximum XRP spending limit reached." 10 :=
  ⟨(limit_test_inclusive sampleDrops (samplePayment 500 1000000)
      (some (sampleRecord 1000 99000000)) (by decide)).2.2.2.1 (by decide),
    (limit_test_inclusive sampleDrops (samplePayment 500 999999)
      (some (sampleRecord 1000 99000000)) (by decide)).2.2.2.2 (by decide),
    ((limit_test_inclusive sampleDrops (samplePayment 500 2000000)
      (some (sampleRecord 1000 99000000)) (by decide)).2.2.1 (by decide)).mpr (by decide)⟩

/-- C3 as stated fails where the sum of line 100 wraps: on the stored state
(1000, 2^63 - 1) at time 500, inside the open window, a payment of 1 drop that
passes every guard has the effective accumulated amount 2^63 - 1 and the exact
sum 2^63, which is at least 100,000,000; the 64-bit sum is -2^63, below the
limit, so the invocation ends in `accept` and writes a record that holds the
accumulated amount -2^63 (top byte 128). -/
theorem limit_test_wrap_counterexample :
    nativePayment (samplePayment 500 1) ∧
    effectiveAccumulated (latest_ledger_timestamp (samplePayment 500 1))
        (readState (state (samplePayment 500 1).latest_state
          (some (sampleRecord 1000 9223372036854775807))))
      = 9223372036854775807 ∧
    transaction_amount sampleDrops (samplePayment 500 1) = 1 ∧
    effectiveAccumulated (latest_ledger_timestamp (samplePayment 500 1))
        (readState (state (samplePayment 500 1).latest_state
          (some (sampleRecord 1000 9223372036854775807))))
      + transaction_amount sampleDrops (samplePayment 500 1) ≥ 100000000 ∧
    hook sampleDrops (samplePayment 500 1) (some (sampleRecord 1000 9223372036854775807))
      = ⟨[HostCall.state (samplePayment 500 1).account_field,
          HostCall.state_set
            ([232, 3, 0, 0, 0, 0, 0, 0, 0, 0, 0, 0, 0, 0, 0, 128] ++ List.replicate 16 0)
            (samplePayment 500 1).account_field],
          Exit.accept⟩ ∧
    (hook sampleDrops (samplePayment 500 1)
        (some (sampleRecord 1000 9223372036854775807))).exit
      ≠ Exit.rollback "Rate limit exceeded. Maximum XRP spending limit reached." 10 ∧
    readState (state (fun _ => 0)
        (some ([232, 3, 0, 0, 0, 0, 0, 0, 0, 0, 0, 0, 0, 0, 0, 128] ++ List.replicate 16 0)))
      = (1000, -9223372036854775808) := by
  decide

/-- C4 as amended. Window rollover and cold start: for a payment that passes the
guards (sender field present, slot calls and type probe not negative),
at a time `now ≥ 0` with `now ≥ window_end` of the stored state, and with an
amount `0 ≤ amount < 100,000,000`, the invocation reads the state, writes one
record and ends in `accept`; the record written reads back as
`(now + 300 - now mod 300, amount)`, the window end being that expression as a
64-bit integer, which is its exact value whenever `now + 300` is
representable.  The stored amount plays no part. -/
theorem rollover_and_cold_start (AMOUNT_TO_DROPS : List Nat → Int) (h : Host)
    (stored : Option (List Nat)) (hn : nativePayment h)
    (hnow : 0 ≤ latest_ledger_timestamp h)
    (hexp : latest_ledger_timestamp h ≥ (readState (state h.latest_state stored)).1)
    (ha0 : 0 ≤ transaction_amount AMOUNT_TO_DROPS h)
    (ha1 : transaction_amount AMOUNT_TO_DROPS h < 100000000) :
    ∃ data,
      hook AMOUNT_TO_DROPS h stored
        = ⟨[HostCall.state h.account_field, HostCall.state_set data h.account_field],
            Exit.accept⟩ ∧
      (∀ g, readState (state g (some data))
        = (wrap64 (latest_ledger_timestamp h + 300 - latest_ledger_timestamp h % 300),
            transaction_amount AMOUNT_TO_DROPS h)) ∧
      (latest_ledger_timestamp h + 300 < 9223372036854775808 →
        wrap64 (latest_ledger_timestamp h + 300 - latest_ledger_timestamp h % 300)
          = latest_ledger_timestamp h + 300 - latest_ledger_timestamp h % 300) := by
  have hst : stateAtCheck h stored
      = (wrap64 (latest_ledger_timestamp h + 300 - latest_ledger_timestamp h % 300), 0) := by
    unfold stateAtCheck windowCheck
    rw [if_pos hexp, windowEnd_eq _ hnow]
  have hamt : add64 0 (transaction_amount AMOUNT_TO_DROPS h)
      = transaction_amount AMOUNT_TO_DROPS h := by
    rw [add64_exact _ _ (by rw [Int.zero_add]; exact isInt64_transaction_amount _ _),
      Int.zero_add]
  rw [hook_of_nativePayment _ _ _ hn, hst]
  simp only [hamt]
  rw [if_neg (by omega)]
  refine ⟨_, rfl, fun g => ?_, fun hr => wrap64_of_isInt64 _ ?_⟩
  · exact readState_written g _ _ (isInt64_wrap64 _) (isInt64_transaction_amount _ _)
  · unfold isInt64
    omega

/-- C4 as amended, on the stored state (1000, 99,000,000) at time 1000, equal
to the window end: a payment of 500,000 is accepted and the record written
reads back as (1200, 500,000), since 1000 + 300 - 1000 mod 300 = 1200. -/
theorem rollover_and_cold_start_witness :
    ∃ data,
      hook sampleDrops (samplePayment 1000 500000) (some (sampleRecord 1000 99000000))
        = ⟨[HostCall.state (samplePayment 1000 500000).account_field,
            HostCall.state_set data (samplePayment 1000 500000).account_field],
            Exit.accept⟩ ∧
      (∀ g, readState (state g (some data)) = (1200, 500000)) := by
  obtain ⟨data, h1, h2, _⟩ :=
    rollover_and_cold_start sampleDrops (samplePayment 1000 500000)
      (some (sampleRecord 1000 99000000)) (by decide) (by decide) (by decide) (by decide)
      (by decide)
  exact ⟨data, h1, fun g => (h2 g).trans (by decide)⟩

/-- C4 as stated fails on its example: on the stored state (1000, 99,000,000) at
time 1000, a payment of 500,000 is accepted and the record written holds the
window end 1200 (bytes 176, 4), not 1300; it reads back as (1200, 500,000).
It also fails when a host call fails: the same payment is then rejected, at
line 27, 73, 78 or 96. -/
theorem rollover_example_counterexample :
    hook sampleDrops (samplePayment 1000 500000) (some (sampleRecord 1000 99000000))
      = ⟨[HostCall.state (samplePayment 1000 500000).account_field,
          HostCall.state_set
            ([176, 4, 0, 0, 0, 0, 0, 0, 32, 161, 7, 0, 0, 0, 0, 0]
              ++ List.replicate 16 0)
            (samplePayment 1000 500000).account_field],
          Exit.accept⟩ ∧
    readState (state (fun _ => 0)
        (some ([176, 4, 0, 0, 0, 0, 0, 0, 32, 161, 7, 0, 0, 0, 0, 0] ++ List.replicate 16 0)))
      = (1200, 500000) ∧
    readState (state (fun _ => 0)
        (some ([176, 4, 0, 0, 0, 0, 0, 0, 32, 161, 7, 0, 0, 0, 0, 0] ++ List.replicate 16 0)))
      ≠ (1300, 500000) ∧
    (withFailingHostCall (samplePayment 1000 500000)).map
        (fun h => (hook sampleDrops h (some (sampleRecord 1000 99000000))).exit)
      = [Exit.rollback "sfAccount field missing!!!" 10,
          Exit.rollback "Could not slot originating txn." 1,
          Exit.rollback "Could not slot otxn.sfAmount" 2,
          Exit.rollback "Could not determine sent amount type" 3] := by
  decide

/-- C5 as amended. Accept inside an open window: for a payment that passes the
guards (sender field present, slot calls and type probe not negative), at
a time `now < window_end` of the stored state, whose 64-bit sum
`accumulated + amount` is below 100,000,000, the invocation reads the state,
writes one record and ends in `accept`; the record written reads back as
`(window_end, accumulated + amount)`, with that same 64-bit sum.  The 64-bit
sum is the exact sum whenever the exact sum is representable in 64 bits, in
particular for an amount that is not negative and an exact sum below
100,000,000. -/
theorem accept_in_open_window (AMOUNT_TO_DROPS : List Nat → Int) (h : Host)
    (stored : Option (List Nat)) (hn : nativePayment h)
    (hopen : latest_ledger_timestamp h < (readState (state h.latest_state stored)).1)
    (hsum : add64 (readState (state h.latest_state stored)).2
      (transaction_amount AMOUNT_TO_DROPS h) < 100000000) :
    ∃ data,
      hook AMOUNT_TO_DROPS h stored
        = ⟨[HostCall.state h.account_field, HostCall.state_set data h.account_field],
            Exit.accept⟩ ∧
      (∀ g, readState (state g (some data))
        = ((readState (state h.latest_state stored)).1,
            add64 (readState (state h.latest_state stored)).2
              (transaction_amount AMOUNT_TO_DROPS h))) ∧
      (0 ≤ transaction_amount AMOUNT_TO_DROPS h →
        (readState (state h.latest_state stored)).2
          + transaction_amount AMOUNT_TO_DROPS h < 100000000 →
        add64 (readState (state h.latest_state stored)).2
            (transaction_amount AMOUNT_TO_DROPS h)
          = (readState (state h.latest_state stored)).2
            + transaction_amount AMOUNT_TO_DROPS h) ∧
      (isInt64 ((readState (state h.latest_state stored)).2
          + transaction_amount AMOUNT_TO_DROPS h) →
        add64 (readState (state h.latest_state stored)).2
            (transaction_amount AMOUNT_TO_DROPS h)
          = (readState (state h.latest_state stored)).2
            + transaction_amount AMOUNT_TO_DROPS h) := by
  have hst : stateAtCheck h stored = readState (state h.latest_state stored) := by
    unfold stateAtCheck windowCheck
    rw [if_neg (by omega)]
  rw [hook_of_nativePayment _ _ _ hn, hst, if_neg (by omega)]
  refine ⟨_, rfl, fun g => ?_, fun h0 hlt => add64_exact _ _ ?_,
    fun hr => add64_exact _ _ hr⟩
  · exact readState_written g _ _ (isInt64_readLoop _ _) (isInt64_add64 _ _)
  · have := isInt64_readLoop (state h.latest_state stored) 8
    unfold isInt64 at this ⊢
    unfold readState
    simp only at hlt ⊢
    unfold readState at hlt
    simp only at hlt
    omega

/-- C5 as amended, on the stored state (1000, 99,000,000) at time 500: a payment
of 500,000 is accepted and the record written reads back as (1000, 99,500,000). -/
theorem accept_in_open_window_witness :
    ∃ data,
      hook sampleDrops (samplePayment 500 500000) (some (sampleRecord 1000 99000000))
        = ⟨[HostCall.state (samplePayment 500 500000).account_field,
            HostCall.state_set data (samplePayment 500 500000).account_field],
            Exit.accept⟩ ∧
      (∀ g, readState (state g (some data)) = (1000, 99500000)) := by
  obtain ⟨data, h1, h2, _⟩ :=
    accept_in_open_window sampleDrops (samplePayment 500 500000)
      (some (sampleRecord 1000 99000000)) (by decide) (by decide) (by decide)
  exact ⟨data, h1, fun g => (h2 g).trans (by decide)⟩

/-- C5 as stated fails when a host call fails: on the stored state
(1000, 99,000,000) at time 500, inside the open window, a payment of 500,000 in
native form, with 99,000,000 + 500,000 below the limit, is rejected when the
sender field is not read or when `otxn_slot`, `slot_subfield` or `slot_type`
returns a negative value. -/
theorem accept_in_open_window_counterexample :
    (∀ h ∈ withFailingHostCall (samplePayment 500 500000),
      h.otxn_type = ttPAYMENT ∧ h.amount_len = 8 ∧
      latest_ledger_timestamp h
        < (readState (state h.latest_state (some (sampleRecord 1000 99000000)))).1 ∧
      (readState (state h.latest_state (some (sampleRecord 1000 99000000)))).2
        + transaction_amount sampleDrops h < 100000000) ∧
    (withFailingHostCall (samplePayment 500 500000)).map
        (fun h => hook sampleDrops h (some (sampleRecord 1000 99000000)))
      = [⟨[], Exit.rollback "sfAccount field missing!!!" 10⟩,
          ⟨[HostCall.state (samplePayment 500 500000).account_field],
            Exit.rollback "Could not slot originating txn." 1⟩,
          ⟨[HostCall.state (samplePayment 500 500000).account_field],
            Exit.rollback "Could not slot otxn.sfAmount" 2⟩,
          ⟨[HostCall.state (samplePayment 500 500000).account_field],
            Exit.rollback "Could not determine sent amount type" 3⟩] := by
  decide

/-- C6 as amended. Non-payment bypass: for a transaction whose type is not
Payment, whatever else the host returns and whatever is stored, the invocation
makes no call to the store, neither `state` nor `state_set`; it ends in
`accept` when the sender field is present (at least 20 bytes) and in the
`rollback` of line 27 when it is not. -/
theorem non_payment_bypass (AMOUNT_TO_DROPS : List Nat → Int) (h : Host)
    (stored : Option (List Nat)) (htype : h.otxn_type ≠ ttPAYMENT) :
    (hook AMOUNT_TO_DROPS h stored).calls = [] ∧
    (20 ≤ h.account_field_len → hook AMOUNT_TO_DROPS h stored = ⟨[], Exit.accept⟩) ∧
    (h.account_field_len < 20 →
      hook AMOUNT_TO_DROPS h stored
        = ⟨[], Exit.rollback "sfAccount field missing!!!" 10⟩) := by
  unfold hook
  by_cases hacc : h.account_field_len < 20
  · rw [if_pos hacc]
    exact ⟨rfl, fun hge => absurd hacc (not_lt.mpr hge), fun _ => rfl⟩
  · rw [if_neg hacc, if_pos htype]
    exact ⟨rfl, fun _ => rfl, fun hlt => absurd hlt hacc⟩

/-- C6 as amended, on a transaction of type 3 whose sender field is present. -/
theorem non_payment_bypass_witness :
    hook sampleDrops sampleNonPayment (some (sampleRecord 1000 99000000))
      = ⟨[], Exit.accept⟩ :=
  (non_payment_bypass sampleDrops sampleNonPayment (some (sampleRecord 1000 99000000))
    (by decide)).2.1 (by decide)

/-- C6 as stated fails: a transaction of type 3 whose sender field could not be
read is not accepted; the invocation ends in `rollback` at line 27. -/
theorem non_payment_without_sender_counterexample :
    nonPaymentWithoutSender.otxn_type ≠ ttPAYMENT ∧
    hook sampleDrops nonPaymentWithoutSender none
      = ⟨[], Exit.rollback "sfAccount field missing!!!" 10⟩ ∧
    (hook sampleDrops nonPaymentWithoutSender none).exit ≠ Exit.accept := by
  decide

/-- C7 as amended. Unsupported amount: a payment whose amount field is not 8
bytes long is rejected and writes no state, whatever the host returns; when its
sender field is present and both slot calls succeed, it is rejected with the
message "Could not determine sent amount type" and code 3, after the one read
of the state, and this outcome is the same for every content of the amount
field, every stored value, every ledger time and every reading of the amount
bytes. -/
theorem unsupported_amount_rejected (AMOUNT_TO_DROPS : List Nat → Int) (h : Host)
    (stored : Option (List Nat)) (htype : h.otxn_type = ttPAYMENT)
    (hlen : h.amount_len ≠ 8) :
    (∃ msg code, (hook AMOUNT_TO_DROPS h stored).exit = Exit.rollback msg code) ∧
    (∀ c ∈ (hook AMOUNT_TO_DROPS h stored).calls, c.isWrite = false) ∧
    (20 ≤ h.account_field_len → 0 ≤ h.otxn_slot → 0 ≤ h.slot_subfield →
      hook AMOUNT_TO_DROPS h stored
        = ⟨[HostCall.state h.account_field],
            Exit.rollback "Could not determine sent amount type" 3⟩ ∧
      ∀ (drops : List Nat → Int) (content : List Nat) (time : Int) (array : Buf)
        (stored2 : Option (List Nat)),
        hook drops
            { h with amount_buffer := content, ledger_last_time := time,
                     latest_state := array } stored2
          = hook AMOUNT_TO_DROPS h stored) := by
  refine ⟨?_, hook_of_not_nativePayment _ _ _ (fun hn => hlen hn.2.2.2.2.1), ?_⟩
  · unfold hook
    split_ifs <;> first | exact ⟨_, _, rfl⟩ | exact absurd htype ‹_›
  · intro h1 h3 h4
    have key : ∀ (drops : List Nat → Int) (content : List Nat) (time : Int) (array : Buf)
        (stored2 : Option (List Nat)),
        hook drops
            { h with amount_buffer := content, ledger_last_time := time,
                     latest_state := array } stored2
          = ⟨[HostCall.state h.account_field],
            Exit.rollback "Could not determine sent amount type" 3⟩ := by
      intro drops content time array stored2
      unfold hook
      simp only
      rw [if_neg (not_lt.mpr h1), if_neg (not_not.mpr htype), if_neg (not_lt.mpr h3),
        if_neg (not_lt.mpr h4), if_pos hlen]
    have here : hook AMOUNT_TO_DROPS h stored
        = ⟨[HostCall.state h.account_field],
            Exit.rollback "Could not determine sent amount type" 3⟩ := by
      unfold hook
      rw [if_neg (not_lt.mpr h1), if_neg (not_not.mpr htype), if_neg (not_lt.mpr h3),
        if_neg (not_lt.mpr h4), if_pos hlen]
    exact ⟨here, fun drops content time array stored2 =>
      (key drops content time array stored2).trans here.symm⟩

/-- C7 as amended, on a payment with a 48-byte amount field. -/
theorem unsupported_amount_rejected_witness :
    hook sampleDrops sampleIssuedPayment (some (sampleRecord 1000 99000000))
      = ⟨[HostCall.state sampleIssuedPayment.account_field],
          Exit.rollback "Could not determine sent amount type" 3⟩ :=
  ((unsupported_amount_rejected sampleDrops sampleIssuedPayment
    (some (sampleRecord 1000 99000000)) (by decide) (by decide)).2.2
    (by decide) (by decide) (by decide)).1

/-- C7 as stated fails when an earlier guard fires: a payment with a 48-byte
amount field is rejected with code 10 at line 27 when its sender field is not
read, with code 1 at line 73 when `otxn_slot` fails, and with code 2 at line
78 when `slot_subfield` fails, not with code 3. -/
theorem unsupported_amount_earlier_guard_counterexample :
    (∀ h ∈ (withFailingHostCall sampleIssuedPayment).take 3,
      h.otxn_type = ttPAYMENT ∧ h.amount_len ≠ 8) ∧
    ((withFailingHostCall sampleIssuedPayment).take 3).map
        (fun h => (hook sampleDrops h none).exit)
      = [Exit.rollback "sfAccount field missing!!!" 10,
          Exit.rollback "Could not slot originating txn." 1,
          Exit.rollback "Could not slot otxn.sfAmount" 2] ∧
    (∀ h ∈ (withFailingHostCall sampleIssuedPayment).take 3,
      (hook sampleDrops h none).exit
        ≠ Exit.rollback "Could not determine sent amount type" 3) := by
  decide

/-- C8. Decode after encode: for every pair of 64-bit signed integers
`(window_end, accumulated)`, negative ones included, the read loops applied to
the array the write loops filled give the pair back, and so do the read loops
of a later invocation applied to the 32 bytes handed to `state_set`. -/
theorem decode_encode_roundtrip (window_end accumulated : Int) (h1 : isInt64 window_end)
    (h2 : isInt64 accumulated) (updated_state latest_state : Buf) :
    readState (writeState updated_state (window_end, accumulated))
      = (window_end, accumulated) ∧
    readState (state latest_state
        (some (SBUF (writeState updated_state (window_end, accumulated)) 32)))
      = (window_end, accumulated) := by
  refine ⟨?_, readState_written _ _ (window_end, accumulated) h1 h2⟩
  unfold readState
  rw [readLoop_of_bytes _ 0 window_end h1, readLoop_of_bytes _ 8 accumulated h2]
  · intro i hi
    exact writeState_snd _ (window_end, accumulated) _ hi
  · intro i hi
    exact writeState_fst _ (window_end, accumulated) _ hi

/-- C8, on a negative window end and an amount whose top byte is 0x80. -/
theorem decode_encode_roundtrip_witness :
    readState (writeState (fun _ => 0) (-2, -9223372036854775808))
      = (-2, -9223372036854775808) ∧
    readState (state (fun _ => 7)
        (some (SBUF (writeState (fun _ => 0) (-2, -9223372036854775808)) 32)))
      = (-2, -9223372036854775808) :=
  decode_encode_roundtrip (-2) (-9223372036854775808) (by decide) (by decide)
    (fun _ => 0) (fun _ => 7)

/-- C9. Encode after decode: for every 16-byte blob `b`, the write loops applied
to the state the read loops obtain from `b` reproduce `b` byte for byte in
bytes 0 to 15 of the array. -/
theorem encode_decode_roundtrip (b : List Nat) (hlen : b.length = 16)
    (hbytes : ∀ x ∈ b, x < 256) (updated_state latest_state : Buf) :
    (∀ j, j < 16 →
      writeState updated_state (readState (state latest_state (some b))) j = b.getD j 0) ∧
    SBUF (writeState updated_state (readState (state latest_state (some b)))) 16 = b := by
  have hsrc : ∀ j, j < 16 → state latest_state (some b) j = b.getD j 0 := by
    intro j hj
    show (if b.length ≤ 32 then fun j => if j < b.length then b.getD j 0 else latest_state j
      else latest_state) j = b.getD j 0
    rw [hlen, if_pos (by omega)]
    show (if j < 16 then b.getD j 0 else latest_state j) = b.getD j 0
    rw [if_pos hj]
  have hlt : ∀ j, j < 16 → b.getD j 0 < 256 := by
    intro j hj
    rw [List.getD_eq_getElem _ _ (by omega)]
    exact hbytes _ (List.getElem_mem _)
  have hpt : ∀ j, j < 16 →
      writeState updated_state (readState (state latest_state (some b))) j = b.getD j 0 := by
    intro j hj
    by_cases h8 : j < 8
    · rw [(writeState_readState updated_state _ j h8).1, hsrc j hj]
      exact Nat.mod_eq_of_lt (hlt j hj)
    · obtain ⟨i, rfl⟩ : ∃ i, j = i + 8 := ⟨j - 8, by omega⟩
      rw [(writeState_readState updated_state _ i (by omega)).2, hsrc _ hj]
      exact Nat.mod_eq_of_lt (hlt _ hj)
  refine ⟨hpt, ?_⟩
  apply List.ext_getElem
  · rw [length_SBUF, hlen]
  · intro j hj1 hj2
    have hj : j < 16 := by rw [length_SBUF] at hj1; exact hj1
    have e1 := getD_SBUF (writeState updated_state (readState (state latest_state (some b))))
      16 j hj
    rw [List.getD_eq_getElem _ _ hj1] at e1
    rw [e1, hpt j hj, List.getD_eq_getElem _ _ hj2]

/-- C9, on a blob whose bytes are 255, 254, ..., 240. -/
theorem encode_decode_roundtrip_witness :
    SBUF (writeState (fun _ => 0) (readState (state (fun _ => 7)
        (some [255, 254, 253, 252, 251, 250, 249, 248,
          247, 246, 245, 244, 243, 242, 241, 240])))) 16
      = [255, 254, 253, 252, 251, 250, 249, 248, 247, 246, 245, 244, 243, 242, 241, 240] :=
  (encode_decode_roundtrip
    [255, 254, 253, 252, 251, 250, 249, 248, 247, 246, 245, 244, 243, 242, 241, 240]
    (by decide) (by decide) (fun _ => 0) (fun _ => 7)).2

/-- C10. Little-endian layout: whenever an invocation calls `state_set`, byte
`i` of the record it hands over (`i` from 0 to 7) is
`(w div 256^i) mod 256` for `w` the 64-bit pattern of the window end then held
by the program, and byte `8 + i` is `(a div 256^i) mod 256` for `a` the 64-bit
pattern of the accumulated amount then held, that is, the sum after line 105;
the record reads back as that state. -/
theorem little_endian_layout (AMOUNT_TO_DROPS : List Nat → Int) (h : Host)
    (stored : Option (List Nat)) (data key : List Nat)
    (hw : HostCall.state_set data key ∈ (hook AMOUNT_TO_DROPS h stored).calls)
    (i : Nat) (hi : i < 8) :
    data.getD i 0 = toBits (stateAtCheck h stored).1 / 256 ^ i % 256 ∧
    data.getD (8 + i) 0
      = toBits (add64 (stateAtCheck h stored).2 (transaction_amount AMOUNT_TO_DROPS h))
          / 256 ^ i % 256 ∧
    ∀ g, readState (state g (some data))
      = ((stateAtCheck h stored).1,
          add64 (stateAtCheck h stored).2 (transaction_amount AMOUNT_TO_DROPS h)) := by
  by_cases hn : nativePayment h
  · rw [hook_of_nativePayment _ _ _ hn] at hw
    split_ifs at hw with hl
    · simp at hw
    · simp only [List.mem_cons, reduceCtorEq, HostCall.state_set.injEq, List.mem_singleton,
        false_or, List.not_mem_nil, or_false] at hw
      obtain ⟨rfl, _⟩ := hw
      refine ⟨?_, ?_, fun g => ?_⟩
      · rw [getD_SBUF _ _ _ (by omega)]
        exact writeState_fst _ _ _ hi
      · rw [getD_SBUF _ _ _ (by omega), Nat.add_comm]
        exact writeState_snd _ _ _ hi
      · exact readState_written g _ _ (isInt64_stateAtCheck _ _) (isInt64_add64 _ _)
  · have := hook_of_not_nativePayment AMOUNT_TO_DROPS h stored hn _ hw
    simp [HostCall.isWrite] at this

/-- C10, on the cold-start payment of 500,000 at time 500: the window end is
600 = 2 * 256 + 88, so byte 1 of the record is 2, and the amount is
500,000 = 7 * 65536 + 161 * 256 + 32, so byte 9 is 161. -/
theorem little_endian_layout_witness :
    ([88, 2, 0, 0, 0, 0, 0, 0, 32, 161, 7, 0, 0, 0, 0, 0] ++ List.replicate 16 0).getD 1 0
      = toBits (stateAtCheck (samplePayment 500 500000) none).1 / 256 ^ 1 % 256 ∧
    ([88, 2, 0, 0, 0, 0, 0, 0, 32, 161, 7, 0, 0, 0, 0, 0] ++ List.replicate 16 0).getD (8 + 1) 0
      = toBits (add64 (stateAtCheck (samplePayment 500 500000) none).2
          (transaction_amount sampleDrops (samplePayment 500 500000))) / 256 ^ 1 % 256 :=
  ⟨(little_endian_layout sampleDrops (samplePayment 500 500000) none
      ([88, 2, 0, 0, 0, 0, 0, 0, 32, 161, 7, 0, 0, 0, 0, 0] ++ List.replicate 16 0)
      (samplePayment 500 500000).account_field (by decide) 1 (by decide)).1,
    (little_endian_layout sampleDrops (samplePayment 500 500000) none
      ([88, 2, 0, 0, 0, 0, 0, 0, 32, 161, 7, 0, 0, 0, 0, 0] ++ List.replicate 16 0)
      (samplePayment 500 500000).account_field (by decide) 1 (by decide)).2.1⟩

/-- C11 as amended. Record length: whenever an invocation calls `state_set`, as
every accepted payment does, the data it hands over are exactly 32 bytes long,
the whole array `updated_state`: bytes 0 to 15 are the record of C10, bytes 16
to 31 are what the array held at its declaration, which the program never
sets. -/
theorem record_length (AMOUNT_TO_DROPS : List Nat → Int) (h : Host)
    (stored : Option (List Nat)) (data key : List Nat)
    (hw : HostCall.state_set data key ∈ (hook AMOUNT_TO_DROPS h stored).calls) :
    data.length = 32 ∧
    ∀ j, 16 ≤ j → j < 32 → data.getD j 0 = h.updated_state j := by
  obtain ⟨_, _, rfl, _, _⟩ := hook_write_inv AMOUNT_TO_DROPS h stored data key hw
  refine ⟨length_SBUF _ _, fun j h16 h32 => ?_⟩
  rw [getD_SBUF _ _ _ h32]
  exact writeState_rest _ _ _ h16

/-- C11 as amended, on the cold-start payment of 500,000 at time 500 with an
array `updated_state` that holds 170 in every byte at its declaration. -/
theorem record_length_witness :
    ([88, 2, 0, 0, 0, 0, 0, 0, 32, 161, 7, 0, 0, 0, 0, 0] ++ List.replicate 16 170).length
      = 32 :=
  (record_length sampleDrops paymentOnDirtyArrays none
    ([88, 2, 0, 0, 0, 0, 0, 0, 32, 161, 7, 0, 0, 0, 0, 0] ++ List.replicate 16 170)
    paymentOnDirtyArrays.account_field (by decide)).1

/-- C11 as stated fails: the accepted cold-start payment of 500,000 at time 500
hands 32 bytes to `state_set`, not 16; the last 16 are the bytes 170 the array
`updated_state` held at its declaration. -/
theorem record_length_counterexample :
    hook sampleDrops paymentOnDirtyArrays none
      = ⟨[HostCall.state paymentOnDirtyArrays.account_field,
          HostCall.state_set
            ([88, 2, 0, 0, 0, 0, 0, 0, 32, 161, 7, 0, 0, 0, 0, 0] ++ List.replicate 16 170)
            paymentOnDirtyArrays.account_field],
          Exit.accept⟩ ∧
    ([88, 2, 0, 0, 0, 0, 0, 0, 32, 161, 7, 0, 0, 0, 0, 0] ++ List.replicate 16 170).length
      ≠ 16 := by
  decide

/-- C12 fails on the code: nothing sets the array `latest_state` when no record
is stored, so the state the program decodes is whatever the array held at its
declaration, and a stored value shorter than 16 bytes is decoded as it stands.
With the array holding 1 in every byte and nothing stored, or an empty value
stored, the decoded state is (72340172838076673, 72340172838076673), not
(0, 0), and the first payment
of 500,000 at time 500 is rejected as over the limit, whereas with an explicit
all-zero record of 16 bytes it is accepted.  A stored value of the 8 bytes
232, 3, 0, ... read into a zero-filled array decodes as (1000, 0). -/
theorem absent_record_reads_array :
    (∀ array : Buf, readState (state array none) = readState array) ∧
    readState (state (fun _ => 1) none) = (72340172838076673, 72340172838076673) ∧
    readState (state (fun _ => 1) (some [])) = (72340172838076673, 72340172838076673) ∧
    readState (state (fun _ => 1) (some (List.replicate 16 0))) = (0, 0) ∧
    hook sampleDrops paymentOnDirtyLatestState none
      = ⟨[HostCall.state paymentOnDirtyLatestState.account_field],
          Exit.rollback "Rate limit exceeded. Maximum XRP spending limit reached." 10⟩ ∧
    (hook sampleDrops paymentOnDirtyLatestState (some (List.replicate 16 0))).exit
      = Exit.accept ∧
    readState (state (fun _ => 0) (some [232, 3, 0, 0, 0, 0, 0, 0])) = (1000, 0) := by
  refine ⟨fun _ => rfl, ?_, ?_, ?_, ?_, ?_, ?_⟩ <;> decide

/-- C13. Post-accept bound: for every stored value, every ledger time and every
amount, a payment that ends in `accept` has written one record, and the
accumulated amount that record holds is strictly less than
`MAX_XRP_SPENDING_LIMIT * CONVERSION_FACTOR` = 100 * 1,000,000. -/
theorem post_accept_bound (AMOUNT_TO_DROPS : List Nat → Int) (h : Host)
    (stored : Option (List Nat))
    (hacc : (hook AMOUNT_TO_DROPS h stored).exit = Exit.accept)
    (hpay : h.otxn_type = ttPAYMENT) :
    ∃ data,
      hook AMOUNT_TO_DROPS h stored
        = ⟨[HostCall.state h.account_field, HostCall.state_set data h.account_field],
            Exit.accept⟩ ∧
      (∀ g, (readState (state g (some data))).2
        < MAX_XRP_SPENDING_LIMIT * CONVERSION_FACTOR) ∧
      MAX_XRP_SPENDING_LIMIT * CONVERSION_FACTOR = 100 * 1000000 := by
  obtain ⟨hn, hlt⟩ := hook_accept_payment AMOUNT_TO_DROPS h stored hacc hpay
  rw [hook_of_nativePayment _ _ _ hn, if_neg (by omega)]
  refine ⟨_, rfl, fun g => ?_, by decide⟩
  rw [readState_written g _
    ((stateAtCheck h stored).1,
      add64 (stateAtCheck h stored).2 (transaction_amount AMOUNT_TO_DROPS h))
    (isInt64_stateAtCheck _ _) (isInt64_add64 _ _), limit_eq]
  exact hlt

/-- C13, on the stored state (1000, 99,000,000) at time 500 and a payment of
999,999: the record written holds the accumulated amount 99,999,999. -/
theorem post_accept_bound_witness :
    ∃ data,
      hook sampleDrops (samplePayment 500 999999) (some (sampleRecord 1000 99000000))
        = ⟨[HostCall.state (samplePayment 500 999999).account_field,
            HostCall.state_set data (samplePayment 500 999999).account_field],
            Exit.accept⟩ ∧
      (∀ g, (readState (state g (some data))).2 < 100000000) := by
  obtain ⟨data, h1, h2, _⟩ :=
    post_accept_bound sampleDrops (samplePayment 500 999999)
      (some (sampleRecord 1000 99000000)) (by decide) (by decide)
  exact ⟨data, h1, fun g => by have := h2 g; rw [limit_eq] at this; exact this⟩

/-- C14. Missing sender: a transaction of any type whose sender field is absent
or shorter than 20 bytes (`account_field_len < 20`) is rejected at line 27,
with the message "sfAccount field missing!!!" and code 10, and the invocation
makes no call to the store, neither `state` nor `state_set`. -/
theorem missing_sender_rejected (AMOUNT_TO_DROPS : List Nat → Int) (h : Host)
    (stored : Option (List Nat)) (hlen : h.account_field_len < 20) :
    hook AMOUNT_TO_DROPS h stored
      = ⟨[], Exit.rollback "sfAccount field missing!!!" 10⟩ := by
  unfold hook
  rw [if_pos hlen]

/-- C14, on a payment whose sender field is 19 bytes long. -/
theorem missing_sender_rejected_witness :
    hook sampleDrops { samplePayment 500 500000 with account_field_len := 19 }
        (some (sampleRecord 1000 99000000))
      = ⟨[], Exit.rollback "sfAccount field missing!!!" 10⟩ :=
  missing_sender_rejected sampleDrops { samplePayment 500 500000 with account_field_len := 19 }
    (some (sampleRecord 1000 99000000)) (by decide)

/-- C15. Window boundary arithmetic: for a ledger time `now ≥ 0` with `now + 300`
representable in 64 bits, the window end the program computes on expiry
(line 65) is `now + 300 - now mod 300`; it is a multiple of 300, strictly
greater than `now`, at most `now + 300`, and the smallest multiple of 300
strictly greater than `now`. -/
theorem window_boundary (now : Int) (st : Int × Int) (h0 : 0 ≤ now)
    (hrep : now + 300 < 9223372036854775808) (hexp : now ≥ st.1) :
    (windowCheck now st).1 = now + 300 - now % 300 ∧
    (300 : Int) ∣ (windowCheck now st).1 ∧
    now < (windowCheck now st).1 ∧
    (windowCheck now st).1 ≤ now + 300 ∧
    ∀ m : Int, (300 : Int) ∣ m → now < m → (windowCheck now st).1 ≤ m := by
  have he : (windowCheck now st).1 = now + 300 - now % 300 := by
    unfold windowCheck
    rw [if_pos hexp, windowEnd_eq _ h0]
    exact (windowEnd_exact _ h0 hrep).1
  rw [he]
  refine ⟨rfl, ?_, ?_, ?_, ?_⟩
  · omega
  · omega
  · omega
  · intro m hm hlt
    obtain ⟨k, rfl⟩ := hm
    omega

/-- C15, at the time 1000 on a window that ended at 1000: the new window end
is 1200. -/
theorem window_boundary_witness :
    (windowCheck 1000 (1000, 99000000)).1 = 1000 + 300 - 1000 % 300 ∧
    (300 : Int) ∣ (windowCheck 1000 (1000, 99000000)).1 ∧
    (1000 : Int) < (windowCheck 1000 (1000, 99000000)).1 :=
  ⟨(window_boundary 1000 (1000, 99000000) (by decide) (by decide) (by decide)).1,
    (window_boundary 1000 (1000, 99000000) (by decide) (by decide) (by decide)).2.1,
    (window_boundary 1000 (1000, 99000000) (by decide) (by decide) (by decide)).2.2.1⟩

/-- C16 as amended. The type probe gates by its sign only: two invocations that
agree on everything except the value `slot_type` returns end the same way, with
the same calls to the store, whenever the two values are both negative or both
not negative; a negative value makes a payment that passed the guards before
it end in the `rollback` of line 96, with code 3. -/
theorem type_probe_sign_only (AMOUNT_TO_DROPS : List Nat → Int) (h : Host)
    (stored : Option (List Nat)) (v w : Int) :
    ((0 ≤ v ↔ 0 ≤ w) →
      hook AMOUNT_TO_DROPS { h with slot_type := v } stored
        = hook AMOUNT_TO_DROPS { h with slot_type := w } stored) ∧
    (v < 0 → 20 ≤ h.account_field_len → h.otxn_type = ttPAYMENT → 0 ≤ h.otxn_slot →
      0 ≤ h.slot_subfield → h.amount_len = 8 →
      hook AMOUNT_TO_DROPS { h with slot_type := v } stored
        = ⟨[HostCall.state h.account_field],
            Exit.rollback "Could not determine sent amount type" 3⟩) := by
  constructor
  · intro hsign
    unfold hook
    dsimp only
    by_cases hv : v < 0
    · have hw : w < 0 := by omega
      rw [if_pos hv, if_pos hw]
    · have hw : ¬ w < 0 := by omega
      rw [if_neg hv, if_neg hw]
      rfl
  · intro hv h1 h2 h3 h4 h5
    unfold hook
    dsimp only
    rw [if_neg (not_lt.mpr h1), if_neg (not_not.mpr h2), if_neg (not_lt.mpr h3),
      if_neg (not_lt.mpr h4), if_neg (not_not.mpr h5), if_pos hv]

/-- C16 as amended, on the payment of 500,000 at time 500: the probe values 0
and 1 give the same outcome. -/
theorem type_probe_sign_only_witness :
    hook sampleDrops { samplePayment 500 500000 with slot_type := 0 } none
      = hook sampleDrops { samplePayment 500 500000 with slot_type := 1 } none :=
  (type_probe_sign_only sampleDrops (samplePayment 500 500000) none 0 1).1 (by decide)

/-- C16 as stated fails: the cold-start payment of 500,000 at time 500 is
accepted and written when `slot_type` returns 1, and is rejected at line 96
when `slot_type` returns -2, all else being equal. -/
theorem type_probe_counterexample :
    hook sampleDrops { samplePayment 500 500000 with slot_type := 1 } none
      = ⟨[HostCall.state (samplePayment 500 500000).account_field,
          HostCall.state_set
            ([88, 2, 0, 0, 0, 0, 0, 0, 32, 161, 7, 0, 0, 0, 0, 0] ++ List.replicate 16 0)
            (samplePayment 500 500000).account_field],
          Exit.accept⟩ ∧
    hook sampleDrops { samplePayment 500 500000 with slot_type := -2 } none
      = ⟨[HostCall.state (samplePayment 500 500000).account_field],
          Exit.rollback "Could not determine sent amount type" 3⟩ ∧
    hook sampleDrops { samplePayment 500 500000 with slot_type := 1 } none
      ≠ hook sampleDrops { samplePayment 500 500000 with slot_type := -2 } none := by
  decide

/-- C17 as amended. Every accepted payment writes: an invocation that ends in
`accept` calls `state_set`, once, exactly when the transaction is a payment,
whether or not the new state differs from the state read at line 48; for a
transaction that is not a payment it makes no call to the store. -/
theorem write_on_every_accepted_payment (AMOUNT_TO_DROPS : List Nat → Int) (h : Host)
    (stored : Option (List Nat))
    (hacc : (hook AMOUNT_TO_DROPS h stored).exit = Exit.accept) :
    (h.otxn_type = ttPAYMENT →
      ∃ data,
        hook AMOUNT_TO_DROPS h stored
          = ⟨[HostCall.state h.account_field, HostCall.state_set data h.account_field],
              Exit.accept⟩) ∧
    (h.otxn_type ≠ ttPAYMENT → hook AMOUNT_TO_DROPS h stored = ⟨[], Exit.accept⟩) := by
  constructor
  · intro hpay
    obtain ⟨hn, hlt⟩ := hook_accept_payment AMOUNT_TO_DROPS h stored hacc hpay
    rw [hook_of_nativePayment _ _ _ hn, if_neg (by omega)]
    exact ⟨_, rfl⟩
  · intro hnp
    by_cases hlen : h.account_field_len < 20
    · unfold hook at hacc
      rw [if_pos hlen] at hacc
      simp at hacc
    · unfold hook
      rw [if_neg hlen, if_pos hnp]

/-- C17 as amended, on a payment of amount 0 at time 500 inside the open window
of the stored state (1000, 99,000,000): the invocation writes a record. -/
theorem write_on_every_accepted_payment_witness :
    ∃ data,
      hook sampleDrops (samplePayment 500 0) (some (sampleRecord 1000 99000000))
        = ⟨[HostCall.state (samplePayment 500 0).account_field,
            HostCall.state_set data (samplePayment 500 0).account_field],
            Exit.accept⟩ :=
  (write_on_every_accepted_payment sampleDrops (samplePayment 500 0)
    (some (sampleRecord 1000 99000000)) (by decide)).1 (by decide)

/-- C17 as stated fails: a payment of amount 0 at time 500, inside the open
window of the stored state (1000, 99,000,000), is accepted and `state_set` is
called, with a record that is byte for byte the stored one and holds the state
read at the start of the invocation. -/
theorem write_without_change_counterexample :
    readState (state (samplePayment 500 0).latest_state
        (some (sampleRecord 1000 99000000 ++ List.replicate 16 0)))
      = (1000, 99000000) ∧
    hook sampleDrops (samplePayment 500 0)
        (some (sampleRecord 1000 99000000 ++ List.replicate 16 0))
      = ⟨[HostCall.state (samplePayment 500 0).account_field,
          HostCall.state_set (sampleRecord 1000 99000000 ++ List.replicate 16 0)
            (samplePayment 500 0).account_field],
          Exit.accept⟩ ∧
    readState (state (fun _ => 0) (some (sampleRecord 1000 99000000 ++ List.replicate 16 0)))
      = (1000, 99000000) := by
  decide

/-- C18 as amended. The window end only moves forward: for every stored value,
every ledger time `now ≥ 0` with `now + 300` representable in 64 bits and
every invocation that writes a record (every accepted payment), the window end
the record holds is strictly greater than `now`, is at least the window end
read at line 48, and differs from it only when `now` is at least that window
end.  Hence along a run of invocations for one account at such times, in
whatever order the times come, the window ends persisted one after the other
never decrease and none is below the window end the run started from. -/
theorem window_end_moves_forward (AMOUNT_TO_DROPS : List Nat → Int) :
    (∀ (h : Host) (stored : Option (List Nat)) (data key : List Nat),
      HostCall.state_set data key ∈ (hook AMOUNT_TO_DROPS h stored).calls →
      0 ≤ latest_ledger_timestamp h →
      latest_ledger_timestamp h + 300 < 9223372036854775808 →
      ∀ g,
        latest_ledger_timestamp h < (readState (state g (some data))).1 ∧
        (readState (state h.latest_state stored)).1 ≤ (readState (state g (some data))).1 ∧
        ((readState (state g (some data))).1 ≠ (readState (state h.latest_state stored)).1 →
          latest_ledger_timestamp h ≥ (readState (state h.latest_state stored)).1)) ∧
    (∀ (stored : Option (List Nat)) (hs : List Host) (we acc : Int),
      (∀ h ∈ hs, readState (state h.latest_state stored) = (we, acc)) →
      (∀ h ∈ hs, 0 ≤ latest_ledger_timestamp h ∧
        latest_ledger_timestamp h + 300 < 9223372036854775808) →
      (∀ e ∈ acceptedPayments AMOUNT_TO_DROPS stored hs, we ≤ e.1) ∧
      List.Pairwise (fun a b : Int => a ≤ b)
        ((acceptedPayments AMOUNT_TO_DROPS stored hs).map Prod.fst)) := by
  constructor
  · intro h stored data key hw h0 h1 g
    obtain ⟨_, _, rfl, _, _⟩ := hook_write_inv AMOUNT_TO_DROPS h stored data key hw
    rw [readState_written g _
      ((stateAtCheck h stored).1,
        add64 (stateAtCheck h stored).2 (transaction_amount AMOUNT_TO_DROPS h))
      (isInt64_stateAtCheck _ _) (isInt64_add64 _ _)]
    exact windowCheck_forward (latest_ledger_timestamp h)
      (readState (state h.latest_state stored)) h0 h1
  · intro stored hs we acc hread htime
    exact windowEnds_from_state AMOUNT_TO_DROPS hs stored we acc hread htime

/-- C18 as amended, on the payment of 500,000 at time 1000 over the stored
state (1000, 99,000,000), whose record holds the window end 1200, and on the
sample run, whose persisted window ends are 600, 600 and 900. -/
theorem window_end_moves_forward_witness :
    (latest_ledger_timestamp (samplePayment 1000 500000)
      < (readState (state (fun _ => 0)
          (some ([176, 4, 0, 0, 0, 0, 0, 0, 32, 161, 7, 0, 0, 0, 0, 0]
            ++ List.replicate 16 0)))).1) ∧
    (acceptedPayments sampleDrops none sampleRun).map Prod.fst = [600, 600, 900] ∧
    List.Pairwise (fun a b : Int => a ≤ b)
      ((acceptedPayments sampleDrops none sampleRun).map Prod.fst) :=
  ⟨((window_end_moves_forward sampleDrops).1 (samplePayment 1000 500000)
      (some (sampleRecord 1000 99000000))
      ([176, 4, 0, 0, 0, 0, 0, 0, 32, 161, 7, 0, 0, 0, 0, 0] ++ List.replicate 16 0)
      (samplePayment 1000 500000).account_field (by decide) (by decide) (by decide)
      (fun _ => 0)).1,
    by decide,
    ((window_end_moves_forward sampleDrops).2 none sampleRun 0 0 (by decide)
      (by decide)).2⟩

/-- C18 as stated fails where `now + 300` wraps.  At the ledger time `2^63 - 1`,
which is not negative, a payment of 60,000,000 on the zero record is accepted
and the record written holds the window end -9223372036854775516, which is
neither greater than `now` nor at least the previous window end 0.  In the run
of a payment at time 500 followed by a payment at time `2^63 - 1` the persisted
window ends are 600, then -9223372036854775516. -/
theorem window_end_wrap_counterexample :
    0 ≤ latest_ledger_timestamp (samplePayment 9223372036854775807 60000000) ∧
    readState (state (samplePayment 9223372036854775807 60000000).latest_state none)
      = (0, 0) ∧
    acceptedPayments sampleDrops none [samplePayment 9223372036854775807 60000000]
      = [(-9223372036854775516, 60000000)] ∧
    ¬ latest_ledger_timestamp (samplePayment 9223372036854775807 60000000)
      < -9223372036854775516 ∧
    ¬ (0 : Int) ≤ -9223372036854775516 ∧
    (∀ h ∈ paymentsThenLastSecond, 0 ≤ latest_ledger_timestamp h) ∧
    (acceptedPayments sampleDrops none paymentsThenLastSecond).map Prod.fst
      = [600, -9223372036854775516] ∧
    ¬ List.Pairwise (fun a b : Int => a ≤ b)
      ((acceptedPayments sampleDrops none paymentsThenLastSecond).map Prod.fst) := by
  decide

/-- C19. No 64-bit overflow under well-formed inputs: for a stored state with
`0 ≤ accumulated < 100,000,000`, an amount `0 ≤ amount < 2^62` and a time
`0 ≤ now < 2^63 - 300`, the 64-bit sums `accumulated + amount` (of the stored
amount, and of the amount line 100 starts from, which is the stored one or 0)
and `now + 300`, and the 64-bit value of `now + 300 - now mod 300`, are the
exact integers; and a record written by the invocation holds an accumulated
amount with `0 ≤ accumulated < 100,000,000`. -/
theorem no_overflow_when_well_formed (AMOUNT_TO_DROPS : List Nat → Int) (h : Host)
    (stored : Option (List Nat))
    (hacc0 : 0 ≤ (readState (state h.latest_state stored)).2)
    (hacc1 : (readState (state h.latest_state stored)).2 < 100000000)
    (ha0 : 0 ≤ transaction_amount AMOUNT_TO_DROPS h)
    (ha1 : transaction_amount AMOUNT_TO_DROPS h < 4611686018427387904)
    (hn0 : 0 ≤ latest_ledger_timestamp h)
    (hn1 : latest_ledger_timestamp h < 9223372036854775808 - 300) :
    add64 (readState (state h.latest_state stored)).2 (transaction_amount AMOUNT_TO_DROPS h)
      = (readState (state h.latest_state stored)).2 + transaction_amount AMOUNT_TO_DROPS h ∧
    add64 (stateAtCheck h stored).2 (transaction_amount AMOUNT_TO_DROPS h)
      = (stateAtCheck h stored).2 + transaction_amount AMOUNT_TO_DROPS h ∧
    add64 (latest_ledger_timestamp h) DURATION_WINDOW_LIMIT
      = latest_ledger_timestamp h + 300 ∧
    sub64 (add64 (latest_ledger_timestamp h) DURATION_WINDOW_LIMIT)
        (mod64 (latest_ledger_timestamp h) DURATION_WINDOW_LIMIT)
      = latest_ledger_timestamp h + 300 - latest_ledger_timestamp h % 300 ∧
    (∀ data key, HostCall.state_set data key ∈ (hook AMOUNT_TO_DROPS h stored).calls →
      ∀ g, 0 ≤ (readState (state g (some data))).2 ∧
        (readState (state g (some data))).2 < 100000000) := by
  have hchk : 0 ≤ (stateAtCheck h stored).2 ∧ (stateAtCheck h stored).2 < 100000000 := by
    rw [stateAtCheck_snd]
    unfold effectiveAccumulated
    split_ifs <;> omega
  have e2 : add64 (stateAtCheck h stored).2 (transaction_amount AMOUNT_TO_DROPS h)
      = (stateAtCheck h stored).2 + transaction_amount AMOUNT_TO_DROPS h := by
    apply add64_exact
    unfold isInt64
    omega
  refine ⟨?_, e2, ?_, ?_, ?_⟩
  · apply add64_exact
    unfold isInt64
    omega
  · unfold DURATION_WINDOW_LIMIT
    apply add64_exact
    unfold isInt64
    omega
  · rw [windowEnd_eq _ hn0]
    exact (windowEnd_exact _ hn0 (by omega)).1
  · intro data key hw g
    obtain ⟨_, hlt, rfl, _, _⟩ := hook_write_inv AMOUNT_TO_DROPS h stored data key hw
    rw [readState_written g _
      ((stateAtCheck h stored).1,
        add64 (stateAtCheck h stored).2 (transaction_amount AMOUNT_TO_DROPS h))
      (isInt64_stateAtCheck _ _) (isInt64_add64 _ _)]
    simp only
    rw [e2] at hlt ⊢
    omega

/-- C19, on the stored state (1000, 99,000,000) at time 500 and a payment of
500,000: the sum is 99,500,000 and the record written holds it. -/
theorem no_overflow_when_well_formed_witness :
    add64 (readState (state (samplePayment 500 500000).latest_state
        (some (sampleRecord 1000 99000000)))).2
        (transaction_amount sampleDrops (samplePayment 500 500000))
      = (readState (state (samplePayment 500 500000).latest_state
          (some (sampleRecord 1000 99000000)))).2
        + transaction_amount sampleDrops (samplePayment 500 500000) ∧
    (∀ g, 0 ≤ (readState (state g
        (some ([232, 3, 0, 0, 0, 0, 0, 0, 224, 63, 238, 5, 0, 0, 0, 0]
          ++ List.replicate 16 0)))).2 ∧
      (readState (state g
        (some ([232, 3, 0, 0, 0, 0, 0, 0, 224, 63, 238, 5, 0, 0, 0, 0]
          ++ List.replicate 16 0)))).2 < 100000000) :=
  ⟨(no_overflow_when_well_formed sampleDrops (samplePayment 500 500000)
      (some (sampleRecord 1000 99000000)) (by decide) (by decide) (by decide) (by decide)
      (by decide) (by decide)).1,
    (no_overflow_when_well_formed sampleDrops (samplePayment 500 500000)
      (some (sampleRecord 1000 99000000)) (by decide) (by decide) (by decide) (by decide)
      (by decide) (by decide)).2.2.2.2
      ([232, 3, 0, 0, 0, 0, 0, 0, 224, 63, 238, 5, 0, 0, 0, 0] ++ List.replicate 16 0)
      (samplePayment 500 500000).account_field (by decide)⟩

end RateLimitHook
